import Mathlib

/-!
Shallow embedding of the COUP game engine (`src/lib/gameEngine.ts` and
`src/lib/gameTypes.ts`).  Pure functions are translated directly; the
JavaScript `Math.random()` calls inside the Fisher-Yates shuffle are made
explicit by threading a generator `g : Nat → Nat` (the shuffle draws
`j = g i % (i+1)`, exactly the range `Math.floor(Math.random()*(i+1))`
can produce).  Functions that `throw` in TypeScript return
`Except String GameState`.  `Date.now()` timestamps are modelled as the
constant 0 (no property here depends on wall-clock time).  JavaScript
non-null assertions (`x!`) on values that the surrounding control flow
guarantees to be present are modelled with `Option.getD` defaults; the
relevant theorems carry the corresponding hypotheses explicitly.
-/

/-- The five character types of `gameTypes.ts`. -/
inductive Character where
  | Duke | Assassin | Captain | Ambassador | Contessa
  deriving DecidableEq, Repr, Inhabited

/-- The seven action kinds of `gameTypes.ts`. -/
inductive ActionType where
  | income | foreign_aid | coup | tax | assassinate | steal | exchange
  deriving DecidableEq, Repr, Inhabited

/-- Player state (`gameTypes.ts`): coins are a JavaScript number, modelled
as `Int`. -/
structure Player where
  id : String
  name : String
  coins : Int
  influences : List Character
  revealedInfluences : List Character
  isAlive : Bool
  deriving DecidableEq, Repr, Inhabited

/-- A submitted game action (`gameTypes.ts`).  The optional
`claimedCharacter` field of the TypeScript interface is never read by the
engine and is omitted. -/
structure GameAction where
  type : ActionType
  playerId : String
  targetId : Option String
  deriving DecidableEq, Repr, Inhabited

/-- Phase tag of a pending action (`gameTypes.ts`). -/
inductive PAPhase where
  | action | challenge_action | block | challenge_block | resolve
  deriving DecidableEq, Repr, Inhabited

/-- In-flight action sub-state (`gameTypes.ts`). -/
structure PendingAction where
  action : GameAction
  phase : PAPhase
  blockerId : Option String
  blockerCharacter : Option Character
  challengerId : Option String
  waitingForPlayers : List String
  deriving DecidableEq, Repr, Inhabited

/-- Log entry kind (`gameTypes.ts`). -/
inductive LogType where
  | action | challenge | block | reveal | system
  deriving DecidableEq, Repr, Inhabited

/-- Log entry (`gameTypes.ts`); `timestamp` is always 0 in the model. -/
structure GameLog where
  timestamp : Nat
  message : String
  type : LogType
  deriving DecidableEq, Repr, Inhabited

/-- Coarse game phase (`gameTypes.ts`). -/
inductive GamePhase where
  | lobby | playing | finished
  deriving DecidableEq, Repr, Inhabited

/-- Whole game state (`gameTypes.ts`). -/
structure GameState where
  id : String
  players : List Player
  deck : List Character
  currentPlayerIndex : Nat
  pendingAction : Option PendingAction
  winner : Option String
  logs : List GameLog
  phase : GamePhase
  deriving DecidableEq, Repr, Inhabited

/-- The `ACTION_COSTS` table of `gameTypes.ts`. -/
def ACTION_COSTS : ActionType → Int
  | .income => 0
  | .foreign_aid => 0
  | .coup => 7
  | .tax => 0
  | .assassinate => 3
  | .steal => 0
  | .exchange => 0

/-- The `ACTION_CHARACTERS` table of `gameTypes.ts` (`null` as `none`). -/
def ACTION_CHARACTERS : ActionType → Option Character
  | .income => none
  | .foreign_aid => none
  | .coup => none
  | .tax => some .Duke
  | .assassinate => some .Assassin
  | .steal => some .Captain
  | .exchange => some .Ambassador

/-- The partial `BLOCK_CHARACTERS` table of `gameTypes.ts` (absent keys as
`none`). -/
def BLOCK_CHARACTERS : ActionType → Option (List Character)
  | .foreign_aid => some [.Duke]
  | .assassinate => some [.Contessa]
  | .steal => some [.Captain, .Ambassador]
  | _ => none

/-- Display name of a character, used in log and error strings. -/
def chName : Character → String
  | .Duke => "Duke"
  | .Assassin => "Assassin"
  | .Captain => "Captain"
  | .Ambassador => "Ambassador"
  | .Contessa => "Contessa"

/-- Display name of an action type, used in error strings. -/
def atName : ActionType → String
  | .income => "income"
  | .foreign_aid => "foreign_aid"
  | .coup => "coup"
  | .tax => "tax"
  | .assassinate => "assassinate"
  | .steal => "steal"
  | .exchange => "exchange"

/-- Swap two positions of a list, as the destructuring assignment
`[a[i], a[j]] = [a[j], a[i]]` does (right-hand side read first, then the
two writes in order). -/
def swapAt (l : List Character) (i j : Nat) : List Character :=
  (l.set i (l.getD j default)).set j (l.getD i default)

/-- The loop body of `shuffleDeck` (Fisher-Yates): iterate `i` from `n`
down to 1, swapping position `i` with position `g i % (i+1)`. -/
def fyAux (g : Nat → Nat) : Nat → List Character → List Character
  | 0, l => l
  | n + 1, l => fyAux g n (swapAt l (n + 1) (g (n + 1) % (n + 2)))

/-- `shuffleDeck` of `gameEngine.ts`, with the random draws made explicit
via `g`. -/
def shuffleDeck (g : Nat → Nat) (deck : List Character) : List Character :=
  fyAux g (deck.length - 1) deck

/-- `createDeck` of `gameEngine.ts`: three copies of each of the five
characters, then shuffled. -/
def baseDeck : List Character :=
  [.Duke, .Duke, .Duke, .Assassin, .Assassin, .Assassin,
   .Captain, .Captain, .Captain, .Ambassador, .Ambassador, .Ambassador,
   .Contessa, .Contessa, .Contessa]

/-- `createDeck` of `gameEngine.ts`. -/
def createDeck (g : Nat → Nat) : List Character :=
  shuffleDeck g baseDeck

/-- `createPlayer` of `gameEngine.ts`. -/
def createPlayer (id name : String) : Player :=
  { id := id, name := name, coins := 2, influences := [],
    revealedInfluences := [], isAlive := true }

/-- Sequential dealing loop of `createGame`: each player in turn receives
`[deck.pop(), deck.pop()]` (the JavaScript `pop` removes the last
element; the first pop produces the first influence). -/
def dealPlayers : List Character → List String → Nat → List Player × List Character
  | deck, [], _ => ([], deck)
  | deck, name :: rest, i =>
    let c1 := deck.getLastD default
    let d1 := deck.dropLast
    let c2 := d1.getLastD default
    let d2 := d1.dropLast
    let p := { createPlayer ("player_" ++ toString i) name with influences := [c1, c2] }
    let (ps, dRest) := dealPlayers d2 rest (i + 1)
    (p :: ps, dRest)

/-- `createGame` of `gameEngine.ts`.  The `game_${Date.now()}` id is
modelled as the constant string `game_0`. -/
def createGame (g : Nat → Nat) (playerNames : List String) : Except String GameState :=
  if playerNames.length < 2 ∨ playerNames.length > 6 then
    .error "COUP requires 2-6 players"
  else
    let deck0 := createDeck g
    let pd := dealPlayers deck0 playerNames 0
    .ok { id := "game_0"
          players := pd.1
          deck := pd.2
          currentPlayerIndex := 0
          pendingAction := none
          winner := none
          logs := [{ timestamp := 0, message := "Game started!", type := .system }]
          phase := .playing }

/-- `addLog` of `gameEngine.ts`. -/
def addLog (state : GameState) (message : String) (t : LogType) : GameState :=
  { state with logs := state.logs ++ [{ timestamp := 0, message := message, type := t }] }

/-- `getCurrentPlayer` of `gameEngine.ts` (`players[currentPlayerIndex]`,
defaulted when the index is out of range; theorems carry the bound). -/
def getCurrentPlayer (state : GameState) : Player :=
  state.players.getD state.currentPlayerIndex default

/-- `getPlayer` of `gameEngine.ts`. -/
def getPlayer (state : GameState) (playerId : String) : Option Player :=
  state.players.find? (fun p => p.id == playerId)

/-- `canPerformAction` of `gameEngine.ts`: `{valid: false, reason}` is
modelled as `.error reason` and `{valid: true}` as `.ok ()`. -/
def canPerformAction (state : GameState) (action : GameAction) : Except String Unit :=
  match getPlayer state action.playerId with
  | none => .error "Player not found"
  | some player =>
    if !player.isAlive then .error "Player is eliminated"
    else if state.currentPlayerIndex ≠ state.players.indexOf player then
      .error "Not your turn"
    else if state.pendingAction.isSome then .error "Action already pending"
    else
      let cost := ACTION_COSTS action.type
      if player.coins < cost then
        .error ("Not enough coins (need " ++ toString cost ++ ")")
      else if player.coins ≥ 10 ∧ action.type ≠ .coup then
        .error "Must coup when you have 10+ coins"
      else if action.type = .coup ∨ action.type = .assassinate ∨ action.type = .steal then
        match action.targetId with
        | none => .error "Target required"
        | some tid =>
          match getPlayer state tid with
          | none => .error "Target not found"
          | some target =>
            if !target.isAlive then .error "Target is eliminated"
            else if tid = action.playerId then .error "Cannot target yourself"
            else if action.type = .steal ∧ target.coins = 0 then
              .error "Target has no coins to steal"
            else .ok ()
      else .ok ()

/-- Update the player at a list position, as the copy-then-set pattern
`players[i] = {...players[i], field: v}` does. -/
def updatePlayer (ps : List Player) (i : Nat) (f : Player → Player) : List Player :=
  ps.set i (f (ps.getD i default))

/-- Normalization of a possibly-negative JavaScript slice index against a
length (negative indices count from the end, clamped to `[0, len]`). -/
def jsNorm (len : Nat) (i : Int) : Nat :=
  if i < 0 then len - min len i.natAbs else min i.toNat len

/-- JavaScript `Array.prototype.slice(a, b)` (two-argument form). -/
def jsSlice2 (l : List Character) (a b : Int) : List Character :=
  (l.take (jsNorm l.length b)).drop (jsNorm l.length a)

/-- JavaScript `Array.prototype.slice(a)` (one-argument form). -/
def jsSlice1 (l : List Character) (a : Int) : List Character :=
  l.drop (jsNorm l.length a)

/-- `checkWinner` of `gameEngine.ts`. -/
def checkWinner (state : GameState) : GameState :=
  let alivePlayers := state.players.filter (fun p => p.isAlive)
  if alivePlayers.length = 1 then
    let w := alivePlayers.headD default
    { state with
      winner := some w.id
      phase := .finished
      logs := state.logs ++ [{ timestamp := 0, message := w.name ++ " wins!", type := .system }] }
  else state

/-- `loseInfluence` of `gameEngine.ts`. -/
def loseInfluence (state : GameState) (playerId : String) (cardToLose : Option Character) : GameState :=
  let playerIndex := state.players.findIdx (fun p => p.id == playerId)
  let player := state.players.getD playerIndex default
  if player.influences.length = 0 then state
  else
    let card := match cardToLose with
      | some c => c
      | none => player.influences.headD default
    match player.influences.findIdx? (fun c => c == card) with
    | none => state
    | some cardIndex =>
      let newInfluences :=
        player.influences.take cardIndex ++ player.influences.drop (cardIndex + 1)
      let newRevealed := player.revealedInfluences ++ [card]
      let alive := newInfluences.length > 0
      let ps := updatePlayer state.players playerIndex (fun p =>
        { p with
          influences := newInfluences
          revealedInfluences := newRevealed
          isAlive := alive })
      let ns := { state with players := ps }
      let ns := if !alive then
          addLog ns (player.name ++ " has been eliminated!") .system
        else
          addLog ns (player.name ++ " loses " ++ chName card ++ ".") .reveal
      checkWinner ns

/-- The player-skipping loop of `nextTurn`, bounded by fuel (the source
`while` loop does not terminate when no participant is alive; with the
fuel set to the player count it visits every position once). -/
def nextAliveFrom (ps : List Player) : Nat → Nat → Nat
  | 0, idx => idx
  | fuel + 1, idx =>
    if (ps.getD idx default).isAlive then idx
    else nextAliveFrom ps fuel ((idx + 1) % ps.length)

/-- `nextTurn` of `gameEngine.ts`. -/
def nextTurn (state : GameState) : GameState :=
  if state.winner.isSome then state
  else
    let start := (state.currentPlayerIndex + 1) % state.players.length
    let nextIndex := nextAliveFrom state.players state.players.length start
    { state with currentPlayerIndex := nextIndex, pendingAction := none }

/-- `resolveAction` of `gameEngine.ts`. -/
def resolveAction (g : Nat → Nat) (state : GameState) (action : GameAction) : GameState :=
  let playerIndex := state.players.findIdx (fun p => p.id == action.playerId)
  let ns : GameState :=
    match action.type with
    | .income =>
      { state with players := updatePlayer state.players playerIndex (fun p => { p with coins := p.coins + 1 }) }
    | .foreign_aid =>
      { state with players := updatePlayer state.players playerIndex (fun p => { p with coins := p.coins + 2 }) }
    | .tax =>
      { state with players := updatePlayer state.players playerIndex (fun p => { p with coins := p.coins + 3 }) }
    | .coup => loseInfluence state (action.targetId.getD "") none
    | .assassinate => loseInfluence state (action.targetId.getD "") none
    | .steal =>
      let targetIndex := state.players.findIdx (fun p => p.id == action.targetId.getD "")
      let stolen := min 2 ((state.players.getD targetIndex default).coins)
      let ps1 := updatePlayer state.players targetIndex
        (fun p => { p with coins := p.coins - stolen })
      let ps2 := updatePlayer ps1 playerIndex
        (fun p => { p with coins := p.coins + stolen })
      { state with players := ps2 }
    | .exchange =>
      let n1 := state.deck.getLastD default
      let d1 := state.deck.dropLast
      let n2 := d1.getLastD default
      let d2 := d1.dropLast
      let newCards := [n1, n2]
      let player := state.players.getD playerIndex default
      let allCards := player.influences ++ newCards
      let numToKeep := player.influences.length
      let ps := updatePlayer state.players playerIndex
        (fun p => { p with influences := allCards.take numToKeep })
      { state with
        players := ps
        deck := shuffleDeck g (d2 ++ allCards.drop numToKeep) }
  let ns := addLog ns ((ns.players.getD playerIndex default).name ++ " action resolved.") .system
  nextTurn { ns with pendingAction := none }

/-- `startAction` of `gameEngine.ts`. -/
def startAction (g : Nat → Nat) (state : GameState) (action : GameAction) : Except String GameState :=
  match canPerformAction state action with
  | .error reason => .error reason
  | .ok _ =>
    let player := (getPlayer state action.playerId).getD default
    let targetName :=
      ((action.targetId.bind (getPlayer state)).map (fun p => p.name)).getD ""
    let message := player.name ++ " " ++
      (match action.type with
       | .income => "takes income (1 coin)"
       | .foreign_aid => "attempts foreign aid (2 coins)"
       | .coup => "coups " ++ targetName
       | .tax => "claims Duke and takes tax (3 coins)"
       | .assassinate => "claims Assassin and attempts to assassinate " ++ targetName
       | .steal => "claims Captain and attempts to steal from " ++ targetName
       | .exchange => "claims Ambassador and exchanges cards")
    let newState := addLog state message .action
    let newState :=
      if action.type = .coup ∨ action.type = .assassinate then
        let playerIndex := state.players.findIdx (fun p => p.id == action.playerId)
        let ps := updatePlayer newState.players playerIndex (fun p =>
          { p with coins := p.coins - ACTION_COSTS action.type })
        { newState with players := ps }
      else newState
    if action.type = .income ∨ action.type = .coup then
      .ok (resolveAction g newState action)
    else
      let otherPlayers :=
        (state.players.filter (fun p => p.isAlive && p.id ≠ action.playerId)).map (fun p => p.id)
      let pa : PendingAction :=
        { action := action
          phase := if (ACTION_CHARACTERS action.type).isSome then .challenge_action else .block
          blockerId := none
          blockerCharacter := none
          challengerId := none
          waitingForPlayers := otherPlayers }
      .ok { newState with pendingAction := some pa }

/-- `challenge` of `gameEngine.ts`.  The splice of the accused hand uses
JavaScript slice semantics because `indexOf` may yield `-1` (this matters:
see the theorem about claim C9).  A `null` claimed character would push
`undefined` into the deck in the source; it is modelled as appending
nothing (that corner is unreachable: `challenge_action` is only created
for claiming kinds). -/
def challenge (g : Nat → Nat) (state : GameState) (challengerId : String) : Except String GameState :=
  match state.pendingAction with
  | none => .error "No pending action"
  | some pa =>
    match getPlayer state challengerId with
    | none => .error "Invalid challenger"
    | some challenger =>
      if !challenger.isAlive then .error "Invalid challenger"
      else
        let dispatch : Option (String × Option Character) :=
          if pa.phase = .challenge_action then
            some (pa.action.playerId, ACTION_CHARACTERS pa.action.type)
          else if pa.phase = .challenge_block then
            some (pa.blockerId.getD "", pa.blockerCharacter)
          else none
        match dispatch with
        | none => .error "Cannot challenge in this phase"
        | some (targetId, claimed) =>
          let target := (getPlayer state targetId).getD default
          let claimedName := (claimed.map chName).getD ""
          let ns := addLog state
            (challenger.name ++ " challenges " ++ target.name ++ " over a claim of " ++ claimedName)
            .challenge
          let hasCharacter := match claimed with
            | some c => target.influences.contains c
            | none => false
          if hasCharacter then
            let ns := addLog ns (target.name ++ " reveals " ++ claimedName ++ "! Challenge failed.") .reveal
            let ns := loseInfluence ns challengerId none
            let targetIndex := ns.players.findIdx (fun p => p.id == targetId)
            let cardIndex : Int :=
              match claimed with
              | none => -1
              | some c =>
                match (ns.players.getD targetIndex default).influences.findIdx? (fun x => x == c) with
                | some k => (k : Int)
                | none => -1
            let deck1 := shuffleDeck g (ns.deck ++ claimed.toList)
            let newCard := deck1.getLastD default
            let deck2 := deck1.dropLast
            let ns := { ns with
              deck := deck2
              players := updatePlayer ns.players targetIndex (fun p =>
                { p with influences :=
                    jsSlice2 p.influences 0 cardIndex ++ [newCard] ++
                    jsSlice1 p.influences (cardIndex + 1) }) }
            if pa.phase = .challenge_action then
              .ok (resolveAction g ns pa.action)
            else
              .ok (nextTurn ns)
          else
            let ns := addLog ns (target.name ++ " does not have " ++ claimedName ++ "! Challenge succeeded.") .reveal
            let ns := loseInfluence ns targetId none
            if pa.phase = .challenge_action then
              .ok (nextTurn ns)
            else
              .ok (resolveAction g ns pa.action)

/-- `block` of `gameEngine.ts`. -/
def block (state : GameState) (blockerId : String) (character : Character) : Except String GameState :=
  match state.pendingAction with
  | none => .error "No pending action"
  | some pa =>
    match getPlayer state blockerId with
    | none => .error "Invalid blocker"
    | some blocker =>
      if !blocker.isAlive then .error "Invalid blocker"
      else if pa.phase ≠ .block ∧ pa.phase ≠ .challenge_action then
        .error "Cannot block in this phase"
      else
        match BLOCK_CHARACTERS pa.action.type with
        | none => .error (chName character ++ " cannot block " ++ atName pa.action.type)
        | some blockableBy =>
          if !blockableBy.contains character then
            .error (chName character ++ " cannot block " ++ atName pa.action.type)
          else
            let ns := addLog state (blocker.name ++ " claims " ++ chName character ++ " and blocks!") .block
            let otherPlayers :=
              (state.players.filter (fun p => p.isAlive && p.id ≠ blockerId)).map (fun p => p.id)
            let pa2 : PendingAction :=
              { pa with
                phase := .challenge_block
                blockerId := some blockerId
                blockerCharacter := some character
                waitingForPlayers := otherPlayers }
            .ok { ns with pendingAction := some pa2 }

/-- `pass` of `gameEngine.ts`. -/
def pass (g : Nat → Nat) (state : GameState) (playerId : String) : Except String GameState :=
  match state.pendingAction with
  | none => .error "No pending action"
  | some pa =>
    if !pa.waitingForPlayers.contains playerId then
      .error "Not waiting for this player"
    else
      let newWaiting := pa.waitingForPlayers.filter (fun i => i ≠ playerId)
      if newWaiting.length = 0 then
        match pa.phase with
        | .challenge_action =>
          match BLOCK_CHARACTERS pa.action.type with
          | some blockableBy =>
            if blockableBy.length > 0 then
              let canBlockPlayers :=
                (state.players.filter (fun p => p.isAlive && p.id ≠ pa.action.playerId)).map (fun p => p.id)
              let pa2 : PendingAction :=
                { pa with
                  phase := .block
                  waitingForPlayers := canBlockPlayers }
              .ok { state with pendingAction := some pa2 }
            else .ok (resolveAction g state pa.action)
          | none => .ok (resolveAction g state pa.action)
        | .block => .ok (resolveAction g state pa.action)
        | .challenge_block => .ok (nextTurn (addLog state "Block successful!" .system))
        | _ => .ok { state with pendingAction := some { pa with waitingForPlayers := newWaiting } }
      else
        .ok { state with pendingAction := some { pa with waitingForPlayers := newWaiting } }

/-- `getValidActions` of `gameEngine.ts`. -/
def getValidActions (state : GameState) : List ActionType :=
  let player := getCurrentPlayer state
  if player.coins ≥ 10 then [.coup]
  else
    let actions : List ActionType := [.income, .foreign_aid, .tax, .exchange]
    let actions := if player.coins ≥ 3 then actions ++ [.assassinate] else actions
    let actions := if player.coins ≥ 7 then actions ++ [.coup] else actions
    let hasStealTarget := state.players.any
      (fun p => p.isAlive && p.id ≠ player.id && p.coins > 0)
    if hasStealTarget then actions ++ [.steal] else actions

/-- `getValidTargets` of `gameEngine.ts`. -/
def getValidTargets (state : GameState) (actionType : ActionType) : List Player :=
  let currentPlayer := getCurrentPlayer state
  if actionType = .coup ∨ actionType = .assassinate ∨ actionType = .steal then
    state.players.filter (fun p =>
      p.isAlive && p.id ≠ currentPlayer.id &&
      !(actionType = .steal ∧ p.coins = 0))
  else []

/-! ### Derived observations and reachability -/

/-- Ids of the currently-alive participants. -/
def aliveIds (s : GameState) : List String :=
  (s.players.filter (fun p => p.isAlive)).map (fun p => p.id)

/-- Number of cards a participant holds, hidden plus revealed. -/
def pcCount (p : Player) : Nat :=
  p.influences.length + p.revealedInfluences.length

/-- Total cards held by a list of participants. -/
def playersCards (ps : List Player) : Nat :=
  (ps.map pcCount).sum

/-- Total number of cards in the system: deck plus every hidden and
revealed influence. -/
def cardTotal (s : GameState) : Nat :=
  s.deck.length + playersCards s.players

/-- Hidden-influence count of the participant with the given id. -/
def handLen (s : GameState) (pid : String) : Nat :=
  ((getPlayer s pid).getD default).influences.length

/-- Coin balance of the participant with the given id. -/
def coinsOf (s : GameState) (pid : String) : Int :=
  ((getPlayer s pid).getD default).coins

/-- One accepted public move: a validated engine operation that returned
a new state rather than a rejection. -/
def Step (s s' : GameState) : Prop :=
  (∃ g a, startAction g s a = Except.ok s') ∨
  (∃ g c, challenge g s c = Except.ok s') ∨
  (∃ b ch, block s b ch = Except.ok s') ∨
  (∃ g p, pass g s p = Except.ok s')

/-- States produced by `createGame`. -/
def Initial (s : GameState) : Prop :=
  ∃ g names, createGame g names = Except.ok s

/-- States reachable from `createGame` through the validated public move
operations of the engine (`startAction`, `challenge`, `block`, `pass`). -/
def Reachable (s : GameState) : Prop :=
  ∃ s0, Initial s0 ∧ Relation.ReflTransGen Step s0 s

/-- Shape of a well-formed pending exchange: every awaited participant is
alive, the blocker (in the block-challenge phase) is never awaited, and
outside the block-challenge phase the actor is never awaited. -/
def pendingInv (s : GameState) : Prop :=
  ∀ pa, s.pendingAction = some pa →
    (∀ x ∈ pa.waitingForPlayers, x ∈ aliveIds s) ∧
    (pa.phase = PAPhase.challenge_block →
      ∀ b, pa.blockerId = some b → b ∉ pa.waitingForPlayers) ∧
    (pa.phase ≠ PAPhase.challenge_block →
      pa.action.playerId ∉ pa.waitingForPlayers)

/-! ### Concrete executions used as witnesses and counterexamples

The generator `g0` draws `j = i` at every Fisher-Yates step, realizing
the identity permutation; `g9` swaps positions 13 and 0 and otherwise
leaves the deck in place, so that the first player is dealt
`[Contessa, Duke]`.  Both are legitimate instantiations of the
`Math.random()` draws of the source. -/

/-- Identity-permutation random draws. -/
def g0 : Nat → Nat := fun n => n

/-- Random draws that swap deck positions 13 and 0 only. -/
def g9 : Nat → Nat := fun n => if n = 13 then 0 else n

/-- Unwrap an engine result, defaulting on rejection (used only on calls
shown to succeed). -/
def exGet (e : Except String GameState) : GameState :=
  e.toOption.getD default

/-- One public move of the engine, as submitted by a participant. -/
inductive Move where
  | start (a : GameAction)
  | chal (c : String)
  | blk (b : String) (ch : Character)
  | pass (p : String)
  deriving DecidableEq, Repr

/-- Submit one move to the engine. -/
def applyMove (g : Nat → Nat) (m : Move) (s : GameState) : Except String GameState :=
  match m with
  | .start a => startAction g s a
  | .chal c => challenge g s c
  | .blk b ch => block s b ch
  | .pass p => pass g s p

/-- Run a sequence of moves, unwrapping each accepted result. -/
def runMoves (g : Nat → Nat) : List Move → GameState → GameState
  | [], s => s
  | m :: ms, s => runMoves g ms (exGet (applyMove g m s))

/-- Check that every move of a sequence is accepted. -/
def movesOk (g : Nat → Nat) : List Move → GameState → Bool
  | [], _ => true
  | m :: ms, s => (applyMove g m s).isOk && movesOk g ms (exGet (applyMove g m s))

/-- The move sequence of the finished two-player game: Alice taxes once,
then assassinates Bob twice; Bob is eliminated and Alice wins. -/
def c1moves : List Move :=
  [ .start ⟨.tax, "player_0", none⟩, .pass "player_1",
    .start ⟨.income, "player_1", none⟩,
    .start ⟨.assassinate, "player_0", some "player_1"⟩,
    .pass "player_1", .pass "player_1",
    .start ⟨.income, "player_1", none⟩,
    .start ⟨.income, "player_0", none⟩,
    .start ⟨.income, "player_1", none⟩,
    .start ⟨.assassinate, "player_0", some "player_1"⟩,
    .pass "player_1", .pass "player_1" ]

/-- A two-player game played to completion. -/
def c1state : GameState :=
  runMoves g0 c1moves (exGet (createGame g0 ["Alice", "Bob"]))

/-- The move sequence leading to a pending assassination of Ben by Ann in
a three-player game. -/
def c3moves : List Move :=
  [ .start ⟨.tax, "player_0", none⟩, .pass "player_1", .pass "player_2",
    .start ⟨.income, "player_1", none⟩,
    .start ⟨.income, "player_2", none⟩,
    .start ⟨.assassinate, "player_0", some "player_1"⟩ ]

/-- A three-player game in which Ann has declared an assassination of Ben
and the pending action sits in the `challenge_action` phase. -/
def c3state : GameState :=
  runMoves g0 c3moves (exGet (createGame g0 ["Ann", "Ben", "Cal"]))

/-- The state after the legitimate target (Ben) blocks the assassination
in `c3state` with a Contessa claim. -/
def c5state : GameState :=
  runMoves g0 (c3moves ++ [.blk "player_1" .Contessa])
    (exGet (createGame g0 ["Ann", "Ben", "Cal"]))

/-- The move sequence by which Ann ends up holding a single hidden Duke,
declares tax, and then challenges her own claim. -/
def c9moves : List Move :=
  [ .start ⟨.income, "player_0", none⟩,
    .start ⟨.tax, "player_1", none⟩, .pass "player_0", .pass "player_2",
    .start ⟨.income, "player_2", none⟩,
    .start ⟨.income, "player_0", none⟩,
    .start ⟨.assassinate, "player_1", some "player_0"⟩,
    .pass "player_0", .pass "player_2",
    .pass "player_0", .pass "player_2",
    .start ⟨.income, "player_2", none⟩,
    .start ⟨.tax, "player_0", none⟩,
    .chal "player_0" ]

/-- The state after Ann challenges her own tax claim while holding the
claimed Duke as her only hidden influence. -/
def c9final : GameState :=
  runMoves g9 c9moves (exGet (createGame g9 ["Ann", "Ben", "Cal"]))

/-- A hand-built state with a tax claim pending in `challenge_action`
phase where the actor really holds the claimed Duke; used to instantiate
the challenge-correctness theorem. -/
def c2state : GameState :=
  { id := "w"
    players :=
      [ { id := "a", name := "A", coins := 2, influences := [.Duke, .Contessa],
          revealedInfluences := [], isAlive := true },
        { id := "b", name := "B", coins := 2, influences := [.Captain],
          revealedInfluences := [.Assassin], isAlive := true },
        { id := "c", name := "C", coins := 2, influences := [.Ambassador, .Ambassador],
          revealedInfluences := [], isAlive := true } ]
    deck := [.Assassin, .Captain, .Contessa]
    currentPlayerIndex := 0
    pendingAction := some
      { action := ⟨.tax, "a", none⟩
        phase := .challenge_action
        blockerId := none
        blockerCharacter := none
        challengerId := none
        waitingForPlayers := ["b", "c"] }
    winner := none
    logs := []
    phase := .playing }

/-- A freshly created two-player game, used to instantiate hypotheses of
the universally quantified theorems. -/
def c4state : GameState :=
  exGet (createGame g0 ["Alice", "Bob"])

/-- Concrete actor used for the steal-boundary witness. -/
def c8actor : Player :=
  { id := "a", name := "A", coins := 5, influences := [.Captain],
    revealedInfluences := [.Duke], isAlive := true }

/-- Concrete one-coin target used for the steal-boundary witness. -/
def c8target : Player :=
  { id := "b", name := "B", coins := 1, influences := [.Contessa, .Duke],
    revealedInfluences := [], isAlive := true }

/-- Concrete state for the steal-boundary witness: the target holds
exactly one coin. -/
def c8state : GameState :=
  { id := "w8", players := [c8actor, c8target], deck := [.Assassin, .Ambassador],
    currentPlayerIndex := 0, pendingAction := none, winner := none, logs := [],
    phase := .playing }

/-- The steal action submitted in the steal-boundary witness. -/
def c8act : GameAction := ⟨.steal, "a", some "b"⟩

/-- Concrete actor for the cost-deduction witness: 7 coins, no Assassin. -/
def c7actor : Player :=
  { id := "a", name := "A", coins := 7, influences := [.Duke, .Captain],
    revealedInfluences := [], isAlive := true }

/-- Concrete state for the cost-deduction witness. -/
def c7state : GameState :=
  { id := "w7"
    players :=
      [ c7actor,
        { id := "b", name := "B", coins := 2, influences := [.Contessa],
          revealedInfluences := [.Duke], isAlive := true } ]
    deck := [.Assassin, .Ambassador, .Contessa]
    currentPlayerIndex := 0
    pendingAction := none
    winner := none
    logs := []
    phase := .playing }

/-- The coup declared in the cost-deduction witness. -/
def c7coup : GameAction := ⟨.coup, "a", some "b"⟩

/-- The assassination declared in the cost-deduction witness. -/
def c7assn : GameAction := ⟨.assassinate, "a", some "b"⟩

/-! ### List-level helper lemmas -/

theorem updatePlayer_nil (i : Nat) (f : Player → Player) : updatePlayer [] i f = [] := rfl

theorem updatePlayer_cons_zero (a : Player) (t : List Player) (f : Player → Player) :
    updatePlayer (a :: t) 0 f = f a :: t := rfl

theorem updatePlayer_cons_succ (a : Player) (t : List Player) (k : Nat) (f : Player → Player) :
    updatePlayer (a :: t) (k + 1) f = a :: updatePlayer t k f := rfl

theorem length_updatePlayer (ps : List Player) (i : Nat) (f : Player → Player) :
    (updatePlayer ps i f).length = ps.length := by
  simp [updatePlayer]

theorem length_swapAt (l : List Character) (i j : Nat) :
    (swapAt l i j).length = l.length := by
  simp [swapAt]

theorem length_fyAux (g : Nat → Nat) (n : Nat) (l : List Character) :
    (fyAux g n l).length = l.length := by
  induction n generalizing l with
  | zero => rfl
  | succ n ih => rw [fyAux, ih, length_swapAt]

theorem length_shuffleDeck (g : Nat → Nat) (d : List Character) :
    (shuffleDeck g d).length = d.length :=
  length_fyAux g (d.length - 1) d


theorem getD_set_self (l : List Character) (i : Nat) (x d : Character) (h : i < l.length) :
    (l.set i x).getD i d = x := by
  induction l generalizing i with
  | nil => simp at h
  | cons a t ih =>
    cases i with
    | zero => rfl
    | succ k => exact ih k (by simpa using h)

theorem getD_set_ne (l : List Character) (i j : Nat) (x d : Character) (h : i ≠ j) :
    (l.set i x).getD j d = l.getD j d := by
  induction l generalizing i j with
  | nil => rfl
  | cons a t ih =>
    cases i with
    | zero =>
      cases j with
      | zero => exact absurd rfl h
      | succ m => rfl
    | succ k =>
      cases j with
      | zero => rfl
      | succ m => exact ih k m (by omega)

theorem count_set_add (l : List Character) (i : Nat) (a c : Character) (h : i < l.length) :
    (l.set i a).count c + (if l.getD i default = c then 1 else 0)
      = l.count c + (if a = c then 1 else 0) := by
  induction l generalizing i with
  | nil => simp at h
  | cons b t ih =>
    cases i with
    | zero =>
      simp only [List.set_cons_zero, List.count_cons, List.getD_cons_zero, beq_iff_eq]
      by_cases h1 : b = c <;> by_cases h2 : a = c <;> simp [h1, h2] <;> omega
    | succ k =>
      have hk : k < t.length := by simpa using h
      have hrec := ih k hk
      simp only [List.getD_eq_getElem?_getD] at hrec
      simp only [List.set_cons_succ, List.count_cons, List.getD_cons_succ, beq_iff_eq,
        List.getD_eq_getElem?_getD]
      by_cases h1 : b = c <;> simp [h1] <;> omega

theorem count_swapAt (l : List Character) (i j : Nat) (c : Character)
    (hi : i < l.length) (hj : j < l.length) :
    (swapAt l i j).count c = l.count c := by
  have hj2 : j < (l.set i (l.getD j default)).length := by simpa using hj
  have h2 := count_set_add (l.set i (l.getD j default)) j (l.getD i default) c hj2
  have h1 := count_set_add l i (l.getD j default) c hi
  have hg : (l.set i (l.getD j default)).getD j default = l.getD j default := by
    by_cases hij : i = j
    · subst hij
      exact getD_set_self l i (l.getD i default) default hi
    · exact getD_set_ne l i j (l.getD j default) default hij
  rw [hg] at h2
  exact Nat.add_right_cancel (h2.trans h1)

theorem count_fyAux (g : Nat → Nat) (n : Nat) (l : List Character) (c : Character)
    (h : n < l.length) :
    (fyAux g n l).count c = l.count c := by
  induction n generalizing l with
  | zero => rfl
  | succ n ih =>
    rw [fyAux]
    have hlen : (swapAt l (n + 1) (g (n + 1) % (n + 2))).length = l.length :=
      length_swapAt l (n + 1) (g (n + 1) % (n + 2))
    have hj : g (n + 1) % (n + 2) < l.length := by
      have := Nat.mod_lt (g (n + 1)) (y := n + 2) (by omega)
      omega
    rw [ih _ (by omega : n < (swapAt l (n + 1) (g (n + 1) % (n + 2))).length ) ]
    exact count_swapAt l (n + 1) (g (n + 1) % (n + 2)) c h hj

theorem count_shuffleDeck (g : Nat → Nat) (d : List Character) (c : Character) :
    (shuffleDeck g d).count c = d.count c := by
  cases d with
  | nil => rfl
  | cons a t =>
    exact count_fyAux g ((a :: t).length - 1) (a :: t) c (by simp)

theorem find?_findIdx_getD (ps : List Player) (q : Player → Bool) (p : Player)
    (h : ps.find? q = some p) :
    ps.findIdx q < ps.length ∧ ps.getD (ps.findIdx q) default = p := by
  induction ps with
  | nil => simp at h
  | cons a t ih =>
    cases hqa : q a with
    | true =>
      rw [List.find?_cons, hqa] at h
      have hp : a = p := by simpa using h
      subst hp
      simp [List.findIdx_cons, hqa]
    | false =>
      rw [List.find?_cons, hqa] at h
      have := ih h
      simp only [List.findIdx_cons, hqa, cond_false]
      constructor
      · simpa using this.1
      · simpa using this.2

theorem findIdx_of_find?_none (ps : List Player) (q : Player → Bool)
    (h : ps.find? q = none) : ps.findIdx q = ps.length :=
  List.findIdx_eq_length.mpr (by
    intro x hx
    have := List.find?_eq_none.mp h x hx
    simpa using this)

theorem findIdx_set_congr (ps : List Player) (i : Nat) (p' : Player) (q : Player → Bool)
    (h : q p' = q (ps.getD i default)) :
    (ps.set i p').findIdx q = ps.findIdx q := by
  induction ps generalizing i with
  | nil => rfl
  | cons a t ih =>
    cases i with
    | zero =>
      have : q p' = q a := h
      simp [List.set_cons_zero, List.findIdx_cons, this]
    | succ k =>
      simp only [List.set_cons_succ, List.findIdx_cons]
      rw [ih k h]

theorem find?_updatePlayer (ps : List Player) (uid qid : String) (f : Player → Player)
    (hid : ∀ p, (f p).id = p.id) :
    (updatePlayer ps (ps.findIdx (fun p => p.id == uid)) f).find? (fun p => p.id == qid) =
      if qid = uid then (ps.find? (fun p => p.id == uid)).map f
      else ps.find? (fun p => p.id == qid) := by
  induction ps with
  | nil => simp [updatePlayer_nil]
  | cons a t ih =>
    by_cases ha : a.id = uid
    · have hba : (a.id == uid) = true := by simpa using ha
      rw [List.findIdx_cons, hba, cond_true, updatePlayer_cons_zero]
      by_cases hq : qid = uid
      · subst hq
        have : ((f a).id == qid) = true := by
          rw [hid a]
          simpa using ha
        simp [List.find?_cons, this, hba]
      · have h1 : ((f a).id == qid) = false := by
          rw [hid a]
          simp only [beq_eq_false_iff_ne, ne_eq]
          intro hc
          exact hq (by rw [← hc, ha])
        have h2 : (a.id == qid) = false := by
          simp only [beq_eq_false_iff_ne, ne_eq]
          intro hc
          exact hq (by rw [← hc, ha])
        simp [List.find?_cons, h1, h2, hq]
    · have hba : (a.id == uid) = false := by simpa using ha
      rw [List.findIdx_cons, hba, cond_false, updatePlayer_cons_succ]
      by_cases ha2 : a.id = qid
      · have hq : ¬ qid = uid := by
          intro hc
          exact ha (by rw [ha2, hc])
      
        have hba2 : (a.id == qid) = true := by simpa using ha2
        simp [List.find?_cons, hba2, hq]
      · have hba2 : (a.id == qid) = false := by simpa using ha2
        rw [List.find?_cons, hba2, ih]
        have hcons : List.find? (fun p => p.id == uid) (a :: t)
            = List.find? (fun p => p.id == uid) t := by
          rw [List.find?_cons, hba]
        have hcons2 : List.find? (fun p => p.id == qid) (a :: t)
            = List.find? (fun p => p.id == qid) t := by
          rw [List.find?_cons, hba2]
        by_cases hq : qid = uid
        · rw [if_pos hq, if_pos hq, hcons]
        · rw [if_neg hq, if_neg hq, hcons2]

theorem find?_updatePlayer_self (ps : List Player) (uid : String) (f : Player → Player)
    (hid : ∀ p, (f p).id = p.id) :
    (updatePlayer ps (ps.findIdx (fun p => p.id == uid)) f).find? (fun p => p.id == uid) =
      (ps.find? (fun p => p.id == uid)).map f := by
  have := find?_updatePlayer ps uid uid f hid
  simpa using this

theorem find?_updatePlayer_ne (ps : List Player) (uid qid : String) (f : Player → Player)
    (hid : ∀ p, (f p).id = p.id) (h : qid ≠ uid) :
    (updatePlayer ps (ps.findIdx (fun p => p.id == uid)) f).find? (fun p => p.id == qid) =
      ps.find? (fun p => p.id == qid) := by
  have := find?_updatePlayer ps uid qid f hid
  rwa [if_neg h] at this

theorem playersCards_updatePlayer (ps : List Player) (i : Nat) (f : Player → Player)
    (hpc : pcCount (f (ps.getD i default)) = pcCount (ps.getD i default)) :
    playersCards (updatePlayer ps i f) = playersCards ps := by
  induction ps generalizing i with
  | nil => rfl
  | cons a t ih =>
    cases i with
    | zero =>
      have : pcCount (f a) = pcCount a := hpc
      simp [updatePlayer_cons_zero, playersCards, this]
    | succ k =>
      have := ih k hpc
      simp only [playersCards, List.map_cons, List.sum_cons] at this ⊢
      rw [updatePlayer_cons_succ]
      simp only [List.map_cons, List.sum_cons]
      omega

theorem aliveMap_updatePlayer (ps : List Player) (i : Nat) (f : Player → Player)
    (hid : ∀ p, (f p).id = p.id) (hal : ∀ p, (f p).isAlive = p.isAlive) :
    ((updatePlayer ps i f).filter (fun p => p.isAlive)).map (fun p => p.id)
      = (ps.filter (fun p => p.isAlive)).map (fun p => p.id) := by
  induction ps generalizing i with
  | nil => rfl
  | cons a t ih =>
    cases i with
    | zero =>
      rw [updatePlayer_cons_zero]
      rw [List.filter_cons, List.filter_cons]
      rw [hal a]
      cases ha : a.isAlive with
      | true => simp [hid a]
      | false => simp
    | succ k =>
      rw [updatePlayer_cons_succ]
      rw [List.filter_cons, List.filter_cons]
      cases ha : a.isAlive with
      | true => simp [ha, ih k]
      | false => simp [ha, ih k]

theorem findIdx?_aux_lt (p : Character → Bool) (l : List Character) :
    ∀ i k, List.findIdx? p l i = some k → i ≤ k ∧ k < i + l.length := by
  induction l with
  | nil => intro i k h; simp [List.findIdx?] at h
  | cons a t ih =>
    intro i k h
    rw [List.findIdx?_cons] at h
    by_cases hp : p a = true
    · rw [if_pos hp] at h
      have hik : i = k := by simpa using h
      subst hik
      simp
    · rw [if_neg hp] at h
      have := ih (i + 1) k h
      constructor
      · omega
      · simpa [Nat.add_comm, Nat.add_left_comm] using this.2

theorem findIdx?_some_lt (l : List Character) (p : Character → Bool) (k : Nat)
    (h : l.findIdx? p = some k) : k < l.length := by
  have := findIdx?_aux_lt p l 0 k h
  omega

theorem length_rotation (h : List Character) (k : Nat) (hk : k < h.length) (x : Character) :
    (jsSlice2 h 0 (k : Int) ++ [x] ++ jsSlice1 h ((k : Int) + 1)).length = h.length := by
  have h0 : jsNorm h.length (0 : Int) = 0 := by simp [jsNorm]
  have h1 : jsNorm h.length (k : Int) = k := by
    simp only [jsNorm]
    rw [if_neg (by omega)]
    simp
    omega
  have h2 : jsNorm h.length ((k : Int) + 1) = min (k + 1) h.length := by
    simp only [jsNorm]
    rw [if_neg (by omega)]
    norm_cast
  simp only [jsSlice2, jsSlice1, h0, h1, h2, List.length_append, List.length_drop,
    List.length_take, List.length_cons, List.length_nil]
  omega

/-! ### Engine frame lemmas -/

theorem addLog_players (s : GameState) (m : String) (t : LogType) :
    (addLog s m t).players = s.players := rfl

theorem addLog_deck (s : GameState) (m : String) (t : LogType) :
    (addLog s m t).deck = s.deck := rfl

theorem addLog_pendingAction (s : GameState) (m : String) (t : LogType) :
    (addLog s m t).pendingAction = s.pendingAction := rfl

theorem addLog_winner (s : GameState) (m : String) (t : LogType) :
    (addLog s m t).winner = s.winner := rfl

theorem getPlayer_addLog (s : GameState) (m : String) (t : LogType) (pid : String) :
    getPlayer (addLog s m t) pid = getPlayer s pid := rfl

theorem checkWinner_players (s : GameState) : (checkWinner s).players = s.players := by
  simp only [checkWinner]
  split <;> rfl

theorem checkWinner_deck (s : GameState) : (checkWinner s).deck = s.deck := by
  simp only [checkWinner]
  split <;> rfl

theorem checkWinner_pendingAction (s : GameState) :
    (checkWinner s).pendingAction = s.pendingAction := by
  simp only [checkWinner]
  split <;> rfl

theorem checkWinner_currentPlayerIndex (s : GameState) :
    (checkWinner s).currentPlayerIndex = s.currentPlayerIndex := by
  simp only [checkWinner]
  split <;> rfl

theorem getPlayer_checkWinner (s : GameState) (pid : String) :
    getPlayer (checkWinner s) pid = getPlayer s pid := by
  unfold getPlayer
  rw [checkWinner_players]

theorem nextTurn_players (s : GameState) : (nextTurn s).players = s.players := by
  simp only [nextTurn]
  split <;> rfl

theorem nextTurn_deck (s : GameState) : (nextTurn s).deck = s.deck := by
  simp only [nextTurn]
  split <;> rfl

theorem nextTurn_winner (s : GameState) : (nextTurn s).winner = s.winner := by
  simp only [nextTurn]
  split <;> rfl

theorem getPlayer_nextTurn (s : GameState) (pid : String) :
    getPlayer (nextTurn s) pid = getPlayer s pid := by
  unfold getPlayer
  rw [nextTurn_players]

theorem nextTurn_pendingAction_none (s : GameState) (h : s.pendingAction = none) :
    (nextTurn s).pendingAction = none := by
  simp only [nextTurn]
  split
  · exact h
  · rfl

theorem nextTurn_eq_of_winner (s : GameState) (h : s.winner.isSome = true) :
    nextTurn s = s := by
  simp only [nextTurn, h]
  rfl

theorem resolveAction_pendingAction (g : Nat → Nat) (s : GameState) (a : GameAction) :
    (resolveAction g s a).pendingAction = none := by
  simp only [resolveAction]
  exact nextTurn_pendingAction_none _ rfl

theorem getPlayer_setPlayers (s : GameState) (ps : List Player) (pid : String) :
    getPlayer { s with players := ps } pid = ps.find? (fun p => p.id == pid) := rfl

theorem setPlayers_players (s : GameState) (ps : List Player) :
    ({ s with players := ps } : GameState).players = ps := rfl

theorem loseInfluence_deck (s : GameState) (pid : String) (c : Option Character) :
    (loseInfluence s pid c).deck = s.deck := by
  simp only [loseInfluence]
  split
  · rfl
  · split
    · rfl
    · rw [checkWinner_deck]
      split <;> rfl

theorem loseInfluence_pendingAction (s : GameState) (pid : String) (c : Option Character) :
    (loseInfluence s pid c).pendingAction = s.pendingAction := by
  simp only [loseInfluence]
  split
  · rfl
  · split
    · rfl
    · rw [checkWinner_pendingAction]
      split <;> rfl

theorem loseInfluence_currentPlayerIndex (s : GameState) (pid : String) (c : Option Character) :
    (loseInfluence s pid c).currentPlayerIndex = s.currentPlayerIndex := by
  simp only [loseInfluence]
  split
  · rfl
  · split
    · rfl
    · rw [checkWinner_currentPlayerIndex]
      split <;> rfl

theorem getPlayer_loseInfluence_ne (s : GameState) (pid qid : String) (c : Option Character)
    (h : qid ≠ pid) :
    getPlayer (loseInfluence s pid c) qid = getPlayer s qid := by
  simp only [loseInfluence]
  split
  · rfl
  · split
    · rfl
    · rw [getPlayer_checkWinner]
      split <;>
      · rw [getPlayer_addLog, getPlayer_setPlayers]
        unfold getPlayer
        apply find?_updatePlayer_ne s.players pid qid _ _ h
        intro p
        rfl

theorem loseInfluence_playersCards (s : GameState) (pid : String) (c : Option Character) :
    playersCards (loseInfluence s pid c).players = playersCards s.players := by
  simp only [loseInfluence]
  split
  · rfl
  · rename_i hlen
    split
    · rfl
    · rename_i cardIndex heq
      rw [checkWinner_players]
      have hk := findIdx?_some_lt _ _ _ heq
      split <;>
      · rw [addLog_players, setPlayers_players]
        apply playersCards_updatePlayer
        simp only [pcCount, List.length_append, List.length_take, List.length_drop,
          List.length_cons, List.length_nil]
        omega

theorem cardTotal_loseInfluence (s : GameState) (pid : String) (c : Option Character) :
    cardTotal (loseInfluence s pid c) = cardTotal s := by
  unfold cardTotal
  rw [loseInfluence_deck, loseInfluence_playersCards]

theorem find?_update_fields (ps : List Player) (uid : String)
    (inf rev : List Character) (al : Bool) :
    (updatePlayer ps (ps.findIdx fun p => p.id == uid)
        (fun p => { p with influences := inf, revealedInfluences := rev, isAlive := al })).find?
      (fun p => p.id == uid)
      = (ps.find? (fun p => p.id == uid)).map
          (fun p => { p with influences := inf, revealedInfluences := rev, isAlive := al }) :=
  find?_updatePlayer_self ps uid _ (fun _ => rfl)

theorem find?_update_fields_ne (ps : List Player) (uid qid : String)
    (inf rev : List Character) (al : Bool) (h : qid ≠ uid) :
    (updatePlayer ps (ps.findIdx fun p => p.id == uid)
        (fun p => { p with influences := inf, revealedInfluences := rev, isAlive := al })).find?
      (fun p => p.id == qid)
      = ps.find? (fun p => p.id == qid) :=
  find?_updatePlayer_ne ps uid qid _ (fun _ => rfl) h

theorem find?_update_coinsF (ps : List Player) (uid : String) (h : Player → Int) :
    (updatePlayer ps (ps.findIdx fun p => p.id == uid)
        (fun p => { p with coins := h p })).find? (fun p => p.id == uid)
      = (ps.find? (fun p => p.id == uid)).map (fun p => { p with coins := h p }) :=
  find?_updatePlayer_self ps uid _ (fun _ => rfl)

theorem find?_update_coinsF_ne (ps : List Player) (uid qid : String) (h : Player → Int)
    (hne : qid ≠ uid) :
    (updatePlayer ps (ps.findIdx fun p => p.id == uid)
        (fun p => { p with coins := h p })).find? (fun p => p.id == qid)
      = ps.find? (fun p => p.id == qid) :=
  find?_updatePlayer_ne ps uid qid _ (fun _ => rfl) hne

theorem find?_update_infF (ps : List Player) (uid : String) (h : Player → List Character) :
    (updatePlayer ps (ps.findIdx fun p => p.id == uid)
        (fun p => { p with influences := h p })).find? (fun p => p.id == uid)
      = (ps.find? (fun p => p.id == uid)).map (fun p => { p with influences := h p }) :=
  find?_updatePlayer_self ps uid _ (fun _ => rfl)

theorem find?_update_infF_ne (ps : List Player) (uid qid : String)
    (h : Player → List Character) (hne : qid ≠ uid) :
    (updatePlayer ps (ps.findIdx fun p => p.id == uid)
        (fun p => { p with influences := h p })).find? (fun p => p.id == qid)
      = ps.find? (fun p => p.id == qid) :=
  find?_updatePlayer_ne ps uid qid _ (fun _ => rfl) hne

theorem getPlayer_loseInfluence_self (s : GameState) (pid : String) (p : Player)
    (hfind : getPlayer s pid = some p) (hne : p.influences ≠ []) :
    getPlayer (loseInfluence s pid none) pid =
      some { p with
        influences := p.influences.tail
        revealedInfluences := p.revealedInfluences ++ [p.influences.headD default]
        isAlive := decide (p.influences.tail.length > 0) } := by
  obtain ⟨hlt, hgetD⟩ := find?_findIdx_getD s.players (fun q => q.id == pid) p hfind
  simp only [loseInfluence]
  rw [hgetD]
  rw [if_neg (fun hz => hne (List.length_eq_zero.mp hz))]
  cases hinf : p.influences with
  | nil => exact absurd hinf hne
  | cons hd tl =>
    have hfi : (hd :: tl).findIdx? (fun x => x == (hd :: tl).headD default) = some 0 := by
      simp [List.findIdx?_cons]
    rw [hfi]
    rw [getPlayer_checkWinner]
    split <;>
    · rw [getPlayer_addLog, getPlayer_setPlayers, find?_update_fields]
      unfold getPlayer at hfind
      rw [hfind]
      simp [hinf]

theorem handLen_loseInfluence_le (s : GameState) (pid qid : String) (c : Option Character) :
    handLen (loseInfluence s pid c) qid ≤ handLen s qid := by
  by_cases hq : qid = pid
  · subst hq
    simp only [loseInfluence]
    split
    · exact le_refl _
    · split
      · exact le_refl _
      · rename_i hlen x cardIndex heq
        have hk := findIdx?_some_lt _ _ _ heq
        unfold handLen
        rw [getPlayer_checkWinner]
        split <;>
        · rw [getPlayer_addLog, getPlayer_setPlayers, find?_update_fields]
          cases hfind : s.players.find? (fun p => p.id == qid) with
          | none =>
            unfold getPlayer
            rw [hfind]
            simp
          | some q =>
            obtain ⟨hlt2, hgd⟩ := find?_findIdx_getD s.players _ q hfind
            unfold getPlayer
            rw [hfind]
            rw [hgd] at hk
            simp only [hgd, Option.map_some', Option.getD_some, List.length_append,
              List.length_take, List.length_drop]
            omega
  · unfold handLen
    rw [getPlayer_loseInfluence_ne s pid qid c hq]

theorem coinsOf_loseInfluence (s : GameState) (pid qid : String) (c : Option Character) :
    coinsOf (loseInfluence s pid c) qid = coinsOf s qid := by
  by_cases hq : qid = pid
  · subst hq
    simp only [loseInfluence]
    split
    · rfl
    · split
      · rfl
      · unfold coinsOf
        rw [getPlayer_checkWinner]
        split <;>
        · rw [getPlayer_addLog, getPlayer_setPlayers, find?_update_fields]
          cases hfind : s.players.find? (fun p => p.id == qid) with
          | none =>
            unfold getPlayer
            rw [hfind]
            simp
          | some q =>
            unfold getPlayer
            rw [hfind]
            simp
  · unfold coinsOf
    rw [getPlayer_loseInfluence_ne s pid qid c hq]

theorem setPending_players (s : GameState) (o : Option PendingAction) :
    ({ s with pendingAction := o } : GameState).players = s.players := rfl

theorem setPending_deck (s : GameState) (o : Option PendingAction) :
    ({ s with pendingAction := o } : GameState).deck = s.deck := rfl

theorem getPlayer_setPending (s : GameState) (o : Option PendingAction) (pid : String) :
    getPlayer { s with pendingAction := o } pid = getPlayer s pid := rfl

theorem setPlayers_deck (s : GameState) (ps : List Player) :
    ({ s with players := ps } : GameState).deck = s.deck := rfl

theorem setPlayersDeck_players (s : GameState) (ps : List Player) (d : List Character) :
    ({ s with players := ps, deck := d } : GameState).players = ps := rfl

theorem setPlayersDeck_deck (s : GameState) (ps : List Player) (d : List Character) :
    ({ s with players := ps, deck := d } : GameState).deck = d := rfl

theorem resolveAction_playersCards (g : Nat → Nat) (s : GameState) (a : GameAction) :
    playersCards (resolveAction g s a).players = playersCards s.players := by
  simp only [resolveAction]
  rw [nextTurn_players, setPending_players, addLog_players]
  split
  · rw [setPlayers_players]
    exact playersCards_updatePlayer _ _ _ rfl
  · rw [setPlayers_players]
    exact playersCards_updatePlayer _ _ _ rfl
  · rw [setPlayers_players]
    exact playersCards_updatePlayer _ _ _ rfl
  · exact loseInfluence_playersCards s _ none
  · exact loseInfluence_playersCards s _ none
  · rw [setPlayers_players]
    rw [playersCards_updatePlayer _ _ _ rfl]
    exact playersCards_updatePlayer _ _ _ rfl
  · rw [setPlayersDeck_players]
    apply playersCards_updatePlayer
    simp only [pcCount, List.length_take, List.length_append, List.length_cons,
      List.length_nil]
    omega

theorem resolveAction_deck_length (g : Nat → Nat) (s : GameState) (a : GameAction)
    (h : a.type = .exchange → 2 ≤ s.deck.length) :
    (resolveAction g s a).deck.length = s.deck.length := by
  simp only [resolveAction]
  rw [nextTurn_deck, setPending_deck, addLog_deck]
  split
  · rw [setPlayers_deck]
  · rw [setPlayers_deck]
  · rw [setPlayers_deck]
  · rw [loseInfluence_deck]
  · rw [loseInfluence_deck]
  · rw [setPlayers_deck]
  · rename_i htype
    rw [setPlayersDeck_deck]
    have h2 := h htype
    rw [length_shuffleDeck]
    simp only [List.length_append, List.length_dropLast, List.length_drop,
      List.length_take, List.length_cons, List.length_nil]
    omega

theorem cardTotal_resolveAction (g : Nat → Nat) (s : GameState) (a : GameAction)
    (h : a.type = .exchange → 2 ≤ s.deck.length) :
    cardTotal (resolveAction g s a) = cardTotal s := by
  unfold cardTotal
  rw [resolveAction_deck_length g s a h, resolveAction_playersCards]

theorem handLen_updateCoins (ps : List Player) (uid qid : String) (h : Player → Int) :
    (((updatePlayer ps (ps.findIdx fun p => p.id == uid)
        (fun p => { p with coins := h p })).find? (fun p => p.id == qid)).getD
          default).influences.length
      = ((ps.find? (fun p => p.id == qid)).getD default).influences.length := by
  by_cases hq : qid = uid
  · subst hq
    rw [find?_update_coinsF]
    cases ps.find? (fun p => p.id == qid) <;> simp
  · rw [find?_update_coinsF_ne _ _ _ _ hq]

theorem findIdx_updatePlayer_id (ps : List Player) (i : Nat) (f : Player → Player)
    (hid : (f (ps.getD i default)).id = (ps.getD i default).id) (q : String) :
    (updatePlayer ps i f).findIdx (fun p => p.id == q) = ps.findIdx (fun p => p.id == q) := by
  apply findIdx_set_congr
  rw [hid]

theorem handLen_update2Coins (ps : List Player) (uid1 uid2 qid : String)
    (h1 h2 : Player → Int) :
    (((updatePlayer
        (updatePlayer ps (ps.findIdx fun p => p.id == uid1) (fun p => { p with coins := h1 p }))
        (ps.findIdx fun p => p.id == uid2) (fun p => { p with coins := h2 p })).find?
        (fun p => p.id == qid)).getD default).influences.length
      = ((ps.find? (fun p => p.id == qid)).getD default).influences.length := by
  have hidx : (ps.findIdx fun p => p.id == uid2)
      = ((updatePlayer ps (ps.findIdx fun p => p.id == uid1)
          (fun p => { p with coins := h1 p })).findIdx fun p => p.id == uid2) :=
    (findIdx_updatePlayer_id ps _ _ rfl uid2).symm
  rw [hidx, handLen_updateCoins, handLen_updateCoins]

theorem handLen_resolveAction_le (g : Nat → Nat) (s : GameState) (a : GameAction)
    (qid : String) :
    handLen (resolveAction g s a) qid ≤ handLen s qid := by
  unfold handLen
  simp only [resolveAction]
  rw [getPlayer_nextTurn, getPlayer_setPending, getPlayer_addLog]
  split
  · rw [getPlayer_setPlayers]
    unfold getPlayer
    rw [handLen_updateCoins]
  · rw [getPlayer_setPlayers]
    unfold getPlayer
    rw [handLen_updateCoins]
  · rw [getPlayer_setPlayers]
    unfold getPlayer
    rw [handLen_updateCoins]
  · exact handLen_loseInfluence_le s _ qid none
  · exact handLen_loseInfluence_le s _ qid none
  · rw [getPlayer_setPlayers]
    unfold getPlayer
    exact le_of_eq (handLen_update2Coins s.players (a.targetId.getD "") a.playerId qid _ _)
  · rw [getPlayer_setPlayers]
    unfold getPlayer
    by_cases hq : qid = a.playerId
    · rw [hq, find?_update_infF]
      cases hfind : s.players.find? (fun p => p.id == a.playerId) with
      | none => simp
      | some q =>
        obtain ⟨hlt, hgd⟩ := find?_findIdx_getD s.players _ q hfind
        simp only [hgd, Option.map_some', Option.getD_some, List.length_take,
          List.length_append, List.length_cons, List.length_nil]
        omega
    · rw [find?_update_infF_ne _ _ _ _ hq]

/-! ### Claim C4: legal-actions query -/

/-- Spec-side predicate: some other living participant holds coins. -/
def hasLiveStealTarget (s : GameState) (actor : Player) : Prop :=
  ∃ q ∈ s.players, q.isAlive = true ∧ q.id ≠ actor.id ∧ 0 < q.coins

theorem anySteal_iff (s : GameState) (actor : Player) :
    (s.players.any fun q => q.isAlive && q.id ≠ actor.id && q.coins > 0) = true ↔
      hasLiveStealTarget s actor := by
  unfold hasLiveStealTarget
  rw [List.any_eq_true]
  constructor
  · rintro ⟨q, hq, hpred⟩
    refine ⟨q, hq, ?_⟩
    simpa [Bool.and_eq_true, decide_eq_true_eq, and_assoc] using hpred
  · rintro ⟨q, hq, h1, h2, h3⟩
    exact ⟨q, hq, by simp [Bool.and_eq_true, decide_eq_true_eq, h1, h2, h3]⟩

/-- Claim C4: in a playing state with no pending action, the legal-actions
query returns exactly the singleton coup when the active participant has
10 or more coins, and otherwise exactly the affordable kinds, with steal
included precisely when another living participant holds coins. -/
theorem c4_legal_actions_characterization (s : GameState)
    (hidx : s.currentPlayerIndex < s.players.length)
    (hphase : s.phase = GamePhase.playing)
    (hpend : s.pendingAction = none)
    (hpos : 0 ≤ (getCurrentPlayer s).coins) :
    ∀ a : ActionType,
      a ∈ getValidActions s ↔
        (if (getCurrentPlayer s).coins ≥ 10 then a = ActionType.coup
         else ACTION_COSTS a ≤ (getCurrentPlayer s).coins ∧
           (a = ActionType.steal → hasLiveStealTarget s (getCurrentPlayer s))) := by
  intro a
  unfold getValidActions
  by_cases h10 : (getCurrentPlayer s).coins ≥ 10
  · rw [if_pos h10, if_pos h10]
    cases a <;> simp
  · rw [if_neg h10, if_neg h10]
    have hst := anySteal_iff s (getCurrentPlayer s)
    simp only [ne_eq, gt_iff_lt, decide_not] at hst
    by_cases h3 : (getCurrentPlayer s).coins ≥ 3 <;>
      by_cases h7 : (getCurrentPlayer s).coins ≥ 7 <;>
      by_cases hany : hasLiveStealTarget s (getCurrentPlayer s) <;>
      · cases a <;>
          simp [h3, h7, hany, hst, ACTION_COSTS, -List.any_eq_true] <;>
          omega

/-- Witness for C4 at a concrete freshly created two-player game. -/
theorem c4_legal_actions_witness :
    (c4state.currentPlayerIndex < c4state.players.length ∧
     c4state.phase = GamePhase.playing ∧
     c4state.pendingAction = none ∧
     0 ≤ (getCurrentPlayer c4state).coins) ∧
    (∀ a : ActionType,
      a ∈ getValidActions c4state ↔
        (if (getCurrentPlayer c4state).coins ≥ 10 then a = ActionType.coup
         else ACTION_COSTS a ≤ (getCurrentPlayer c4state).coins ∧
           (a = ActionType.steal → hasLiveStealTarget c4state (getCurrentPlayer c4state)))) :=
  ⟨⟨by decide, by decide, by decide, by decide⟩,
   c4_legal_actions_characterization c4state (by decide) (by decide) (by decide) (by decide)⟩

/-! ### Claim C8: steal resolution -/

theorem find?_update2Coins_fst (ps : List Player) (uid1 uid2 : String)
    (h1 h2 : Player → Int) (hne : uid1 ≠ uid2) :
    ((updatePlayer
        (updatePlayer ps (ps.findIdx fun p => p.id == uid1) (fun p => { p with coins := h1 p }))
        (ps.findIdx fun p => p.id == uid2) (fun p => { p with coins := h2 p })).find?
        (fun p => p.id == uid1))
      = (ps.find? (fun p => p.id == uid1)).map (fun p => { p with coins := h1 p }) := by
  have hidx : (ps.findIdx fun p => p.id == uid2)
      = ((updatePlayer ps (ps.findIdx fun p => p.id == uid1)
          (fun p => { p with coins := h1 p })).findIdx fun p => p.id == uid2) :=
    (findIdx_updatePlayer_id ps _ _ rfl uid2).symm
  rw [hidx, find?_update_coinsF_ne _ _ _ _ hne, find?_update_coinsF]

theorem find?_update2Coins_snd (ps : List Player) (uid1 uid2 : String)
    (h1 h2 : Player → Int) (hne : uid2 ≠ uid1) :
    ((updatePlayer
        (updatePlayer ps (ps.findIdx fun p => p.id == uid1) (fun p => { p with coins := h1 p }))
        (ps.findIdx fun p => p.id == uid2) (fun p => { p with coins := h2 p })).find?
        (fun p => p.id == uid2))
      = (ps.find? (fun p => p.id == uid2)).map (fun p => { p with coins := h2 p }) := by
  have hidx : (ps.findIdx fun p => p.id == uid2)
      = ((updatePlayer ps (ps.findIdx fun p => p.id == uid1)
          (fun p => { p with coins := h1 p })).findIdx fun p => p.id == uid2) :=
    (findIdx_updatePlayer_id ps _ _ rfl uid2).symm
  rw [hidx, find?_update_coinsF, find?_update_coinsF_ne _ _ _ _ hne]

/-- Claim C8: resolving a steal transfers exactly `min 2 target.coins`
from the target to the actor, never driving the target negative; a
one-coin target yields a one-coin transfer. -/
theorem c8_steal_transfers_min (g : Nat → Nat) (s : GameState) (a : GameAction)
    (tid : String) (actor target : Player)
    (htype : a.type = ActionType.steal)
    (htid : a.targetId = some tid)
    (hne : tid ≠ a.playerId)
    (hactor : getPlayer s a.playerId = some actor)
    (htarget : getPlayer s tid = some target)
    (hpos : 0 ≤ target.coins) :
    coinsOf (resolveAction g s a) tid = target.coins - min 2 target.coins ∧
    coinsOf (resolveAction g s a) a.playerId = actor.coins + min 2 target.coins ∧
    0 ≤ coinsOf (resolveAction g s a) tid := by
  obtain ⟨hlt, hgd⟩ := find?_findIdx_getD s.players (fun p => p.id == tid) target htarget
  have hmain : coinsOf (resolveAction g s a) tid = target.coins - min 2 target.coins ∧
      coinsOf (resolveAction g s a) a.playerId = actor.coins + min 2 target.coins := by
    unfold coinsOf
    simp only [resolveAction]
    simp only [getPlayer_nextTurn, getPlayer_setPending, getPlayer_addLog]
    split
    · rename_i heq
      rw [htype] at heq
      simp at heq
    · rename_i heq
      rw [htype] at heq
      simp at heq
    · rename_i heq
      rw [htype] at heq
      simp at heq
    · rename_i heq
      rw [htype] at heq
      simp at heq
    · rename_i heq
      rw [htype] at heq
      simp at heq
    · rw [getPlayer_setPlayers, getPlayer_setPlayers]
      simp only [htid, Option.getD_some]
      rw [find?_update2Coins_fst _ _ _ _ _ hne, find?_update2Coins_snd _ _ _ _ _
        (fun hc => hne hc.symm)]
      unfold getPlayer at htarget hactor
      rw [htarget, hactor, hgd]
      simp
    · rename_i heq
      rw [htype] at heq
      simp at heq
  refine ⟨hmain.1, hmain.2, ?_⟩
  rw [hmain.1]
  omega

/-- Witness for C8 at a target holding exactly one coin: the transfer is
exactly one coin, leaving the target at zero. -/
theorem c8_steal_witness :
    (c8act.type = ActionType.steal ∧ c8act.targetId = some "b" ∧ "b" ≠ c8act.playerId ∧
     getPlayer c8state c8act.playerId = some c8actor ∧
     getPlayer c8state "b" = some c8target ∧ 0 ≤ c8target.coins ∧
     c8target.coins = 1) ∧
    (coinsOf (resolveAction g0 c8state c8act) "b"
        = c8target.coins - min 2 c8target.coins ∧
     coinsOf (resolveAction g0 c8state c8act) c8act.playerId
        = c8actor.coins + min 2 c8target.coins ∧
     0 ≤ coinsOf (resolveAction g0 c8state c8act) "b") :=
  ⟨⟨by decide, by decide, by decide, by decide, by decide, by decide, by decide⟩,
   c8_steal_transfers_min g0 c8state c8act "b" c8actor c8target
     (by decide) (by decide) (by decide) (by decide) (by decide) (by decide)⟩

/-! ### Claim C10: initial state from createGame -/

theorem dealPlayers_props (names : List String) :
    ∀ (deck : List Character) (i : Nat),
      (dealPlayers deck names i).1.length = names.length ∧
      (∀ p ∈ (dealPlayers deck names i).1,
        p.coins = 2 ∧ p.influences.length = 2 ∧ p.revealedInfluences = [] ∧
        p.isAlive = true) ∧
      (dealPlayers deck names i).2.length = deck.length - 2 * names.length := by
  induction names with
  | nil =>
    intro deck i
    refine ⟨rfl, ?_, by simp [dealPlayers]⟩
    intro p hp
    simp [dealPlayers] at hp
  | cons n rest ih =>
    intro deck i
    have hrec := ih deck.dropLast.dropLast (i + 1)
    constructor
    · simp only [dealPlayers, List.length_cons]
      rw [hrec.1]
    · constructor
      · intro p hp
        simp only [dealPlayers, List.mem_cons] at hp
        cases hp with
        | inl h =>
          subst h
          refine ⟨rfl, rfl, rfl, rfl⟩
        | inr h => exact hrec.2.1 p h
      · simp only [dealPlayers]
        rw [hrec.2.2]
        simp only [List.length_dropLast, List.length_cons]
        omega

theorem createDeck_count (g : Nat → Nat) (c : Character) :
    (createDeck g).count c = 3 := by
  unfold createDeck
  rw [count_shuffleDeck]
  cases c <;> rfl

theorem createDeck_length (g : Nat → Nat) : (createDeck g).length = 15 := by
  unfold createDeck
  rw [length_shuffleDeck]
  rfl

/-- Claim C10: for 2 to 6 names, createGame deals every participant two
hidden influences from the shuffled 15-card deck (three copies of each of
the five characters) and a starting balance of exactly 2 coins. -/
theorem c10_create_game_initial_state (g : Nat → Nat) (names : List String)
    (h2 : 2 ≤ names.length) (h6 : names.length ≤ 6) :
    ∃ s, createGame g names = Except.ok s ∧
      s.players.length = names.length ∧
      (∀ p ∈ s.players, p.coins = 2 ∧ p.influences.length = 2 ∧
        p.revealedInfluences = [] ∧ p.isAlive = true) ∧
      s.deck.length = 15 - 2 * names.length ∧
      (createDeck g).length = 15 ∧
      (∀ c : Character, (createDeck g).count c = 3) := by
  have hd := dealPlayers_props names (createDeck g) 0
  unfold createGame
  rw [if_neg (by omega)]
  refine ⟨_, rfl, hd.1, hd.2.1, ?_, createDeck_length g, createDeck_count g⟩
  rw [hd.2.2, createDeck_length g]

/-- Witness for C10 at two concrete names. -/
theorem c10_create_game_witness :
    2 ≤ (["Alice", "Bob"] : List String).length ∧
    (["Alice", "Bob"] : List String).length ≤ 6 ∧
    (∃ s, createGame g0 ["Alice", "Bob"] = Except.ok s ∧
      s.players.length = (["Alice", "Bob"] : List String).length ∧
      (∀ p ∈ s.players, p.coins = 2 ∧ p.influences.length = 2 ∧
        p.revealedInfluences = [] ∧ p.isAlive = true) ∧
      s.deck.length = 15 - 2 * (["Alice", "Bob"] : List String).length ∧
      (createDeck g0).length = 15 ∧
      (∀ c : Character, (createDeck g0).count c = 3)) :=
  ⟨by decide, by decide,
   c10_create_game_initial_state g0 ["Alice", "Bob"] (by decide) (by decide)⟩

/-! ### Claims C3 and C6: acceptance conditions of block and challenge -/

theorem c3_block_acceptance_amended (s : GameState) (blockerId : String) (ch : Character) :
    (block s blockerId ch).isOk = true ↔
      ∃ pa, s.pendingAction = some pa ∧
        (∃ b, getPlayer s blockerId = some b ∧ b.isAlive = true) ∧
        (pa.phase = PAPhase.block ∨ pa.phase = PAPhase.challenge_action) ∧
        (∃ l, BLOCK_CHARACTERS pa.action.type = some l ∧ ch ∈ l) := by
  constructor
  · intro h
    unfold block at h
    cases hpa : s.pendingAction with
    | none =>
      rw [hpa] at h
      simp [Except.isOk, Except.toBool] at h
    | some pa =>
      rw [hpa] at h
      simp only [] at h
      cases hb : getPlayer s blockerId with
      | none =>
        rw [hb] at h
        simp [Except.isOk, Except.toBool] at h
      | some b =>
        rw [hb] at h
        simp only [] at h
        cases hAlive : b.isAlive with
        | false =>
          rw [hAlive] at h
          simp [Except.isOk, Except.toBool] at h
        | true =>
          rw [hAlive] at h
          simp only [Bool.not_true, Bool.false_eq_true, if_false] at h
          by_cases hph : pa.phase ≠ PAPhase.block ∧ pa.phase ≠ PAPhase.challenge_action
          · rw [if_pos hph] at h
            simp [Except.isOk, Except.toBool] at h
          · rw [if_neg hph] at h
            rw [not_and_or, not_not, not_not] at hph
            cases hbc : BLOCK_CHARACTERS pa.action.type with
            | none =>
              rw [hbc] at h
              simp [Except.isOk, Except.toBool] at h
            | some l =>
              rw [hbc] at h
              simp only [] at h
              cases hmem : l.contains ch with
              | false =>
                rw [hmem] at h
                simp [Except.isOk, Except.toBool] at h
              | true =>
                refine ⟨pa, rfl, ⟨b, rfl, hAlive⟩, by tauto, l, hbc, ?_⟩
                simpa using hmem
  · rintro ⟨pa, hpa, ⟨b, hb, hAlive⟩, hph, l, hbc, hmem⟩
    unfold block
    rw [hpa]
    simp only []
    rw [hb]
    simp only []
    rw [hAlive]
    simp only [Bool.not_true, Bool.false_eq_true, if_false]
    rw [if_neg (by tauto)]
    rw [hbc]
    simp only []
    have hc : l.contains ch = true := by simpa using hmem
    rw [hc]
    simp [Except.isOk, Except.toBool]

/-- Counterexample for C3 as stated: in `c3state` an assassination of
`player_1` is pending, yet a Contessa block by `player_2` — who is not
the target — is accepted rather than rejected. -/
theorem c3_nontarget_block_accepted_cex :
    c3state.pendingAction.isSome = true ∧
    (c3state.pendingAction.getD default).phase = PAPhase.challenge_action ∧
    (c3state.pendingAction.getD default).action.type = ActionType.assassinate ∧
    (c3state.pendingAction.getD default).action.targetId = some "player_1" ∧
    (block c3state "player_2" Character.Contessa).isOk = true := by
  decide

theorem c6_challenge_acceptance_amended (g : Nat → Nat) (s : GameState) (cid : String) :
    (challenge g s cid).isOk = true ↔
      ∃ pa, s.pendingAction = some pa ∧
        (∃ c, getPlayer s cid = some c ∧ c.isAlive = true) ∧
        (pa.phase = PAPhase.challenge_action ∨ pa.phase = PAPhase.challenge_block) := by
  constructor
  · intro h
    unfold challenge at h
    cases hpa : s.pendingAction with
    | none =>
      rw [hpa] at h
      simp [Except.isOk, Except.toBool] at h
    | some pa =>
      rw [hpa] at h
      simp only [] at h
      cases hc : getPlayer s cid with
      | none =>
        rw [hc] at h
        simp [Except.isOk, Except.toBool] at h
      | some c =>
        rw [hc] at h
        simp only [] at h
        cases hAlive : c.isAlive with
        | false =>
          rw [hAlive] at h
          simp [Except.isOk, Except.toBool] at h
        | true =>
          refine ⟨pa, rfl, ⟨c, rfl, hAlive⟩, ?_⟩
          by_cases h1 : pa.phase = PAPhase.challenge_action
          · exact Or.inl h1
          · by_cases h2 : pa.phase = PAPhase.challenge_block
            · exact Or.inr h2
            · rw [hAlive] at h
              simp only [Bool.not_true, Bool.false_eq_true, if_false] at h
              rw [if_neg h1, if_neg h2] at h
              simp [Except.isOk, Except.toBool] at h
  · rintro ⟨pa, hpa, ⟨c, hc, hAlive⟩, hph⟩
    unfold challenge
    rw [hpa]
    simp only []
    rw [hc]
    simp only []
    rw [hAlive]
    simp only [Bool.not_true, Bool.false_eq_true, if_false]
    rcases hph with h1 | h1
    · rw [if_pos h1]
      simp only []
      split <;> (try split) <;> rfl
    · by_cases h0 : pa.phase = PAPhase.challenge_action
      · rw [if_pos h0]
        simp only []
        split <;> (try split) <;> rfl
      · rw [if_neg h0, if_pos h1]
        simp only []
        split <;> (try split) <;> rfl

/-- Counterexample for C6 as stated: in `c3state` the actor `player_0`
challenges their own pending claim, and the engine accepts the move
instead of rejecting it. -/
theorem c6_self_challenge_accepted_cex :
    c3state.pendingAction.isSome = true ∧
    (c3state.pendingAction.getD default).phase = PAPhase.challenge_action ∧
    (c3state.pendingAction.getD default).action.playerId = "player_0" ∧
    ((getPlayer c3state "player_0").getD default).isAlive = true ∧
    (challenge g0 c3state "player_0").isOk = true := by
  decide

/-! ### Claim C7: cost deduction at declaration time -/

theorem coinsOf_addLog (s : GameState) (m : String) (t : LogType) (qid : String) :
    coinsOf (addLog s m t) qid = coinsOf s qid := rfl

theorem coinsOf_setPending (s : GameState) (o : Option PendingAction) (qid : String) :
    coinsOf { s with pendingAction := o } qid = coinsOf s qid := rfl

theorem coinsOf_nextTurn (s : GameState) (qid : String) :
    coinsOf (nextTurn s) qid = coinsOf s qid := by
  unfold coinsOf
  rw [getPlayer_nextTurn]

theorem coinsOf_resolveAction_coup (g : Nat → Nat) (s : GameState) (a : GameAction)
    (qid : String) (h : a.type = ActionType.coup) :
    coinsOf (resolveAction g s a) qid = coinsOf s qid := by
  simp only [resolveAction]
  rw [coinsOf_nextTurn, coinsOf_setPending, coinsOf_addLog]
  split <;> rename_i heq <;> rw [h] at heq <;> try simp at heq
  exact coinsOf_loseInfluence s _ qid none

theorem contains_eq_false_of_not_mem {l : List Character} {c : Character}
    (h : c ∉ l) : l.contains c = false := by
  cases hcc : l.contains c with
  | false => rfl
  | true => exact absurd (by simpa using hcc) h

/-- A challenge lodged in `challenge_action` phase against an actor who
does not hold the claimed character succeeds, and it changes no coin
balance: in particular the actor keeps the already-deducted balance. -/
theorem challenge_failed_actor_coins (g : Nat → Nat) (s : GameState) (pa : PendingAction)
    (chId : String) (chP : Player)
    (hpend : s.pendingAction = some pa)
    (hphase : pa.phase = PAPhase.challenge_action)
    (hch : getPlayer s chId = some chP) (hAlive : chP.isAlive = true)
    (hclaim2 : (ACTION_CHARACTERS pa.action.type).isSome = true)
    (hclaim : ∀ c, ACTION_CHARACTERS pa.action.type = some c →
        c ∉ ((getPlayer s pa.action.playerId).getD default).influences) :
    ∃ s2, challenge g s chId = Except.ok s2 ∧
      ∀ qid, coinsOf s2 qid = coinsOf s qid := by
  cases hac : ACTION_CHARACTERS pa.action.type with
  | none => rw [hac] at hclaim2; simp at hclaim2
  | some c0 =>
    have hnotin := hclaim c0 hac
    have hcont := contains_eq_false_of_not_mem hnotin
    unfold challenge
    rw [hpend]
    simp only []
    rw [hch]
    simp only []
    rw [hAlive]
    simp only [Bool.not_true, Bool.false_eq_true, if_false]
    rw [if_pos hphase]
    simp only []
    rw [hac]
    simp only []
    rw [hcont]
    simp only [Bool.false_eq_true, if_false]
    rw [if_pos hphase]
    refine ⟨_, rfl, ?_⟩
    intro qid
    rw [coinsOf_nextTurn, coinsOf_loseInfluence, coinsOf_addLog, coinsOf_addLog]

/-- Claim C7: coup (cost 7) and assassinate (cost 3) deduct their cost
from the actor at declaration time inside `startAction`; if a later
challenge against the declared assassination succeeds (the actor does
not hold the Assassin), the cost is not refunded: the actor's balance is
still reduced by 3 after the challenge resolves. -/
theorem c7_cost_deducted_at_declaration :
    (∀ (g : Nat → Nat) (s : GameState) (a : GameAction) (actor : Player),
      a.type = ActionType.coup → canPerformAction s a = Except.ok () →
      getPlayer s a.playerId = some actor →
      ∃ s1, startAction g s a = Except.ok s1 ∧
        coinsOf s1 a.playerId = actor.coins - 7) ∧
    (∀ (g g2 : Nat → Nat) (s : GameState) (a : GameAction) (actor : Player),
      a.type = ActionType.assassinate → canPerformAction s a = Except.ok () →
      getPlayer s a.playerId = some actor →
      ∃ s1, startAction g s a = Except.ok s1 ∧
        coinsOf s1 a.playerId = actor.coins - 3 ∧
        s1.pendingAction.isSome = true ∧
        (∀ chId chP, getPlayer s1 chId = some chP → chP.isAlive = true →
          Character.Assassin ∉ actor.influences →
          ∃ s2, challenge g2 s1 chId = Except.ok s2 ∧
            coinsOf s2 a.playerId = actor.coins - 3)) := by
  constructor
  · intro g s a actor htype hok hactor
    unfold startAction
    rw [hok]
    simp only []
    rw [if_pos (show a.type = ActionType.coup ∨ a.type = ActionType.assassinate
      from Or.inl htype)]
    rw [if_pos (show a.type = ActionType.income ∨ a.type = ActionType.coup
      from Or.inr htype)]
    refine ⟨_, rfl, ?_⟩
    rw [coinsOf_resolveAction_coup _ _ _ _ htype]
    unfold coinsOf
    rw [getPlayer_setPlayers, addLog_players, find?_update_coinsF]
    unfold getPlayer at hactor
    rw [hactor]
    simp [ACTION_COSTS, htype]
  · intro g g2 s a actor htype hok hactor
    unfold startAction
    rw [hok]
    simp only []
    rw [if_pos (show a.type = ActionType.coup ∨ a.type = ActionType.assassinate
      from Or.inr htype)]
    rw [if_neg (show ¬(a.type = ActionType.income ∨ a.type = ActionType.coup) by
      simp [htype])]
    refine ⟨_, rfl, ?_, rfl, ?_⟩
    · rw [coinsOf_setPending]
      unfold coinsOf
      rw [getPlayer_setPlayers, addLog_players, find?_update_coinsF]
      unfold getPlayer at hactor
      rw [hactor]
      simp [ACTION_COSTS, htype]
    · intro chId chP hch hchAlive hnoAss
      obtain ⟨s2, hs2, hcoins⟩ :=
        challenge_failed_actor_coins g2 _ _ chId chP rfl (by rw [htype]; rfl) hch hchAlive
          (by rw [htype]; rfl)
          (by
            intro c hc
            rw [htype] at hc
            have hcd : c = Character.Assassin := by
              simpa [ACTION_CHARACTERS] using hc.symm
            subst hcd
            rw [getPlayer_setPending, getPlayer_setPlayers, addLog_players, find?_update_coinsF]
            unfold getPlayer at hactor
            rw [hactor]
            simpa using hnoAss)
      refine ⟨s2, hs2, ?_⟩
      rw [hcoins, coinsOf_setPending]
      unfold coinsOf
      rw [getPlayer_setPlayers, addLog_players, find?_update_coinsF]
      unfold getPlayer at hactor
      rw [hactor]
      simp [ACTION_COSTS, htype]

/-- Witness for C7 at a concrete state: a seven-coin actor without the
Assassin coups and, separately, declares an assassination. -/
theorem c7_cost_witness :
    (c7coup.type = ActionType.coup ∧
     canPerformAction c7state c7coup = Except.ok () ∧
     getPlayer c7state c7coup.playerId = some c7actor ∧
     c7assn.type = ActionType.assassinate ∧
     canPerformAction c7state c7assn = Except.ok () ∧
     Character.Assassin ∉ c7actor.influences) ∧
    (∃ s1, startAction g0 c7state c7coup = Except.ok s1 ∧
      coinsOf s1 c7coup.playerId = c7actor.coins - 7) ∧
    (∃ s1, startAction g0 c7state c7assn = Except.ok s1 ∧
      coinsOf s1 c7assn.playerId = c7actor.coins - 3 ∧
      s1.pendingAction.isSome = true ∧
      (∀ chId chP, getPlayer s1 chId = some chP → chP.isAlive = true →
        Character.Assassin ∉ c7actor.influences →
        ∃ s2, challenge g0 s1 chId = Except.ok s2 ∧
          coinsOf s2 c7assn.playerId = c7actor.coins - 3)) :=
  ⟨⟨by decide, rfl, by decide, by decide, rfl, by decide⟩,
   c7_cost_deducted_at_declaration.1 g0 c7state c7coup c7actor
     (by decide) rfl (by decide),
   c7_cost_deducted_at_declaration.2 g0 g0 c7state c7assn c7actor
     (by decide) rfl (by decide)⟩

/-! ### Reachability of executed move sequences -/

theorem step_applyMove (g : Nat → Nat) (m : Move) (s s' : GameState)
    (h : applyMove g m s = Except.ok s') : Step s s' := by
  cases m with
  | start a => exact Or.inl ⟨g, a, h⟩
  | chal c => exact Or.inr (Or.inl ⟨g, c, h⟩)
  | blk b ch => exact Or.inr (Or.inr (Or.inl ⟨b, ch, h⟩))
  | pass p => exact Or.inr (Or.inr (Or.inr ⟨g, p, h⟩))

theorem applyMove_ok_exGet (g : Nat → Nat) (m : Move) (s : GameState)
    (h : (applyMove g m s).isOk = true) :
    applyMove g m s = Except.ok (exGet (applyMove g m s)) := by
  cases happ : applyMove g m s with
  | ok v => rfl
  | error e =>
    rw [happ] at h
    simp [Except.isOk, Except.toBool] at h

theorem reachable_runMoves (g : Nat → Nat) (ms : List Move) :
    ∀ s : GameState, movesOk g ms s = true →
      Relation.ReflTransGen Step s (runMoves g ms s) := by
  induction ms with
  | nil => intro s _; exact Relation.ReflTransGen.refl
  | cons m ms ih =>
    intro s h
    rw [movesOk, Bool.and_eq_true] at h
    exact Relation.ReflTransGen.head
      (step_applyMove g m s _ (applyMove_ok_exGet g m s h.1)) (ih _ h.2)

theorem reachable_of_game (gc g : Nat → Nat) (names : List String) (ms : List Move)
    (hn : (createGame gc names).isOk = true)
    (h : movesOk g ms (exGet (createGame gc names)) = true) :
    Reachable (runMoves g ms (exGet (createGame gc names))) := by
  refine ⟨exGet (createGame gc names), ⟨gc, names, ?_⟩, reachable_runMoves g ms _ h⟩
  cases hc : createGame gc names with
  | ok v => rfl
  | error e =>
    rw [hc] at hn
    simp [Except.isOk, Except.toBool] at hn

/-! ### Claims C1 and C9: code bugs shown on executed games -/

/-- Claim C1 (code bug): after Alice eliminates Bob, `checkWinner` has
set `winner` and moved the coarse phase to `finished`, yet
`canPerformAction` consults neither field: the surviving player's next
income move is accepted and changes the state (coins 0 → 1). -/
theorem c1_finished_state_still_accepts_moves :
    c1state.phase = GamePhase.finished ∧
    c1state.winner = some "player_0" ∧
    (c1state.players.filter (fun p => p.isAlive)).length = 1 ∧
    (canPerformAction c1state ⟨ActionType.income, "player_0", none⟩).isOk = true ∧
    (startAction g0 c1state ⟨ActionType.income, "player_0", none⟩).isOk = true ∧
    coinsOf c1state "player_0" = 0 ∧
    coinsOf (exGet (startAction g0 c1state ⟨ActionType.income, "player_0", none⟩))
      "player_0" = 1 := by
  decide

/-- Claim C9 (code bug): the state `c9final` is reachable from
`createGame` through accepted public moves, yet its first participant is
marked dead while still holding one hidden influence — the challenge
splice rebuilt the hand around `indexOf = -1` after the self-challenge,
violating `alive == (influences.length > 0)`. -/
theorem c9_alive_invariant_broken :
    Reachable c9final ∧
    ((getPlayer c9final "player_0").getD default).isAlive = false ∧
    ((getPlayer c9final "player_0").getD default).influences.length = 1 :=
  ⟨reachable_of_game g9 g9 ["Ann", "Ben", "Cal"] c9moves (by decide) (by decide),
   by decide, by decide⟩

/-! ### Claim C2: failed challenges -/

theorem findIdx?_aux_none (p : Character → Bool) (l : List Character) :
    ∀ i, List.findIdx? p l i = none → ∀ x ∈ l, p x = false := by
  induction l with
  | nil => intro i _ x hx; simp at hx
  | cons a t ih =>
    intro i h x hx
    rw [List.findIdx?_cons] at h
    by_cases hp : p a = true
    · rw [if_pos hp] at h
      simp at h
    · rw [if_neg hp] at h
      rcases List.mem_cons.mp hx with hxa | hxt
      · subst hxa
        simpa using hp
      · exact ih (i + 1) h x hxt

theorem findIdx?_isSome_of_mem (l : List Character) (c : Character) (h : c ∈ l) :
    ∃ k, l.findIdx? (fun x => x == c) = some k := by
  cases hfi : l.findIdx? (fun x => x == c) with
  | some k => exact ⟨k, rfl⟩
  | none =>
    have := findIdx?_aux_none _ l 0 hfi c h
    simp at this

theorem handLen_loseInfluence_ne (s : GameState) (pid qid : String) (c : Option Character)
    (h : qid ≠ pid) :
    handLen (loseInfluence s pid c) qid = handLen s qid := by
  unfold handLen
  rw [getPlayer_loseInfluence_ne s pid qid c h]

theorem cardTotal_nextTurn (s : GameState) : cardTotal (nextTurn s) = cardTotal s := by
  unfold cardTotal
  rw [nextTurn_deck, nextTurn_players]

theorem cardTotal_addLog (s : GameState) (m : String) (t : LogType) :
    cardTotal (addLog s m t) = cardTotal s := rfl

theorem nextTurn_pendingAction_of_winner_none (s : GameState) (h : s.winner = none) :
    (nextTurn s).pendingAction = none := by
  simp only [nextTurn, h]
  rfl

theorem handLen_resolveAction_eq (g : Nat → Nat) (s : GameState) (a : GameAction)
    (qid : String) (hq : a.targetId.getD "" ≠ qid) :
    handLen (resolveAction g s a) qid = handLen s qid := by
  unfold handLen
  simp only [resolveAction]
  rw [getPlayer_nextTurn, getPlayer_setPending, getPlayer_addLog]
  split
  · rw [getPlayer_setPlayers]
    unfold getPlayer
    rw [handLen_updateCoins]
  · rw [getPlayer_setPlayers]
    unfold getPlayer
    rw [handLen_updateCoins]
  · rw [getPlayer_setPlayers]
    unfold getPlayer
    rw [handLen_updateCoins]
  · exact congrArg (fun o => ((Option.getD o default).influences).length)
      (getPlayer_loseInfluence_ne s _ qid none (fun he => hq he.symm))
  · exact congrArg (fun o => ((Option.getD o default).influences).length)
      (getPlayer_loseInfluence_ne s _ qid none (fun he => hq he.symm))
  · rw [getPlayer_setPlayers]
    unfold getPlayer
    exact handLen_update2Coins s.players (a.targetId.getD "") a.playerId qid _ _
  · rw [getPlayer_setPlayers]
    unfold getPlayer
    by_cases hqa : qid = a.playerId
    · rw [hqa, find?_update_infF]
      cases hfind : s.players.find? (fun p => p.id == a.playerId) with
      | none => simp
      | some q =>
        obtain ⟨hlt, hgd⟩ := find?_findIdx_getD s.players _ q hfind
        simp only [hgd, Option.map_some', Option.getD_some, List.length_take,
          List.length_append, List.length_cons, List.length_nil]
        omega
    · rw [find?_update_infF_ne _ _ _ _ hqa]

theorem getPlayer_setPlayersDeck (s : GameState) (ps : List Player) (d : List Character)
    (pid : String) :
    getPlayer { s with players := ps, deck := d } pid
      = ps.find? (fun p => p.id == pid) := rfl

theorem cardTotal_rotation (t : GameState) (accId : String) (d : List Character)
    (f : Player → List Character) (accP : Player)
    (hacc : getPlayer t accId = some accP)
    (hd : d.length = t.deck.length)
    (hlen : (f accP).length = accP.influences.length) :
    cardTotal { t with deck := d, players := updatePlayer t.players (t.players.findIdx fun p => p.id == accId) (fun p => { p with influences := f p }) } = cardTotal t := by
  obtain ⟨hlt, hgd⟩ := find?_findIdx_getD t.players (fun p => p.id == accId) accP hacc
  unfold cardTotal
  rw [setPlayersDeck_deck, setPlayersDeck_players]
  rw [playersCards_updatePlayer _ _ _ (by
    rw [hgd]
    simp only [pcCount]
    rw [hlen])]
  rw [hd]

theorem handLen_rotation_ne (t : GameState) (accId qid : String) (d : List Character)
    (f : Player → List Character) (hq : qid ≠ accId) :
    handLen { t with deck := d, players := updatePlayer t.players (t.players.findIdx fun p => p.id == accId) (fun p => { p with influences := f p }) } qid = handLen t qid := by
  unfold handLen
  rw [getPlayer_setPlayersDeck]
  unfold getPlayer
  rw [find?_update_infF_ne _ _ _ _ hq]

theorem handLen_rotation_self (t : GameState) (accId : String) (d : List Character)
    (f : Player → List Character) (accP : Player)
    (hacc : getPlayer t accId = some accP)
    (hlen : (f accP).length = accP.influences.length) :
    handLen { t with deck := d, players := updatePlayer t.players (t.players.findIdx fun p => p.id == accId) (fun p => { p with influences := f p }) } accId = handLen t accId := by
  unfold handLen
  rw [getPlayer_setPlayersDeck]
  unfold getPlayer
  rw [find?_update_infF]
  unfold getPlayer at hacc
  rw [hacc]
  simp only [Option.map_some', Option.getD_some]
  exact hlen

theorem getD_findIdx_challenge_chain (s : GameState) (m1 m2 : String) (t1 t2 : LogType)
    (chId accId : String) (accP : Player)
    (hne2 : accId ≠ chId)
    (hacc : getPlayer s accId = some accP) :
    (loseInfluence (addLog (addLog s m1 t1) m2 t2) chId none).players.getD
        ((loseInfluence (addLog (addLog s m1 t1) m2 t2) chId none).players.findIdx
          fun p => p.id == accId) default = accP := by
  have h2 : getPlayer (loseInfluence (addLog (addLog s m1 t1) m2 t2) chId none) accId
      = some accP := by
    rw [getPlayer_loseInfluence_ne _ _ _ _ hne2, getPlayer_addLog, getPlayer_addLog]
    exact hacc
  unfold getPlayer at h2
  exact (find?_findIdx_getD _ _ accP h2).2

theorem handLen_loseInfluence_self_lt (s : GameState) (pid : String) (p : Player)
    (hfind : getPlayer s pid = some p) (hne : p.influences ≠ []) :
    handLen (loseInfluence s pid none) pid < handLen s pid := by
  unfold handLen
  rw [getPlayer_loseInfluence_self s pid p hfind hne, hfind]
  simp only [Option.getD_some]
  cases hp : p.influences with
  | nil => exact absurd hp hne
  | cons a t => simp [hp]

theorem handLen_nextTurn (s : GameState) (qid : String) :
    handLen (nextTurn s) qid = handLen s qid := by
  unfold handLen
  rw [getPlayer_nextTurn]

/-- Claim C2: with a pending claim in `challenge_action` or
`challenge_block` phase, if the accused party (the actor, respectively the
blocker) holds the claimed character, a challenge by a living third party
is accepted, the challenger — not the accused — ends up with strictly
fewer hidden influences while the accused keeps the same hand size, the
total card count over deck plus hidden plus revealed influences is
unchanged, and the pending exchange is cleared (the action resolves,
respectively the block holds and the turn advances) whenever no winner has
been produced.  In the action-challenge case the resolution that follows
the failed challenge may itself cost the accused actor a card when the
action targets the actor, so that (engine-unconstructible) corner is
excluded there; the block-challenge case carries no such condition — in
particular the blocker may be the action's own target. -/
theorem c2_failed_challenge_penalizes_challenger
    (g : Nat → Nat) (s : GameState) (pa : PendingAction)
    (chId accId : String) (claimed : Character) (chP accP : Player)
    (hpend : s.pendingAction = some pa)
    (hphase :
      (pa.phase = PAPhase.challenge_action ∧ pa.action.playerId = accId ∧
        ACTION_CHARACTERS pa.action.type = some claimed ∧
        pa.action.targetId.getD "" ≠ accId) ∨
      (pa.phase = PAPhase.challenge_block ∧ pa.blockerId = some accId ∧
        pa.blockerCharacter = some claimed))
    (hch : getPlayer s chId = some chP)
    (hchA : chP.isAlive = true)
    (hne : chId ≠ accId)
    (hacc : getPlayer s accId = some accP)
    (hholds : claimed ∈ accP.influences)
    (hchinf : chP.influences ≠ [])
    (hdeck : pa.action.type = ActionType.exchange → 2 ≤ s.deck.length) :
    ∃ s2, challenge g s chId = Except.ok s2 ∧
      cardTotal s2 = cardTotal s ∧
      handLen s2 chId < handLen s chId ∧
      handLen s2 accId = handLen s accId ∧
      (s2.winner = none → s2.pendingAction = none) := by
  have hcont : accP.influences.contains claimed = true := by simpa using hholds
  obtain ⟨kidx, hfi⟩ := findIdx?_isSome_of_mem accP.influences claimed hholds
  rcases hphase with ⟨h1, h2, h3, htgt⟩ | ⟨h1, h2, h3⟩
  · unfold challenge
    rw [hpend]
    simp only []
    rw [hch]
    simp only []
    rw [hchA]
    simp only [Bool.not_true, Bool.false_eq_true, if_false]
    rw [if_pos h1]
    simp only []
    rw [h2, h3]
    rw [hacc]
    simp only [Option.getD_some, Option.map_some', Option.toList_some]
    rw [hcont]
    rw [if_pos rfl]
    rw [if_pos h1]
    rw [getD_findIdx_challenge_chain s _ _ _ _ chId accId accP (fun he => hne he.symm) hacc]
    rw [hfi]
    simp only []
    refine ⟨_, rfl, ?_, ?_, ?_, ?_⟩
    · refine (cardTotal_resolveAction g _ pa.action ?_).trans ?_
      · intro hex
        rw [setPlayersDeck_deck, List.length_dropLast, length_shuffleDeck,
          List.length_append, loseInfluence_deck, addLog_deck, addLog_deck]
        have := hdeck hex
        simp only [List.length_cons, List.length_nil]
        omega
      · refine (cardTotal_rotation _ accId _ _ accP ?_ ?_ ?_).trans ?_
        · rw [getPlayer_loseInfluence_ne _ _ _ _ (fun he => hne he.symm),
            getPlayer_addLog, getPlayer_addLog]
          exact hacc
        · rw [List.length_dropLast, length_shuffleDeck, List.length_append]
          simp
        · exact length_rotation accP.influences kidx
            (findIdx?_some_lt _ _ _ hfi) _
        · rw [cardTotal_loseInfluence, cardTotal_addLog, cardTotal_addLog]
    · refine lt_of_le_of_lt (handLen_resolveAction_le g _ pa.action chId) ?_
      refine (handLen_rotation_ne _ accId chId _ _ hne).trans_lt ?_
      exact handLen_loseInfluence_self_lt _ chId chP hch hchinf
    · refine (handLen_resolveAction_eq g _ pa.action accId htgt).trans ?_
      refine (handLen_rotation_self _ accId _ _ accP ?_ ?_).trans ?_
      · rw [getPlayer_loseInfluence_ne _ _ _ _ (fun he => hne he.symm),
          getPlayer_addLog, getPlayer_addLog]
        exact hacc
      · exact length_rotation accP.influences kidx
          (findIdx?_some_lt _ _ _ hfi) _
      · rw [handLen_loseInfluence_ne _ _ _ _ (fun he => hne he.symm)]
        rfl
    · intro _
      exact resolveAction_pendingAction g _ pa.action
  · have hno : pa.phase ≠ PAPhase.challenge_action := by
      rw [h1]
      decide
    unfold challenge
    rw [hpend]
    simp only []
    rw [hch]
    simp only []
    rw [hchA]
    simp only [Bool.not_true, Bool.false_eq_true, if_false]
    rw [if_neg hno, if_pos h1]
    simp only []
    rw [h2, h3]
    simp only [Option.getD_some]
    rw [hacc]
    simp only [Option.getD_some, Option.map_some', Option.toList_some]
    rw [hcont]
    rw [if_pos rfl]
    rw [if_neg hno]
    rw [getD_findIdx_challenge_chain s _ _ _ _ chId accId accP (fun he => hne he.symm) hacc]
    rw [hfi]
    simp only []
    refine ⟨_, rfl, ?_, ?_, ?_, ?_⟩
    · refine (cardTotal_nextTurn _).trans ?_
      refine (cardTotal_rotation _ accId _ _ accP ?_ ?_ ?_).trans ?_
      · rw [getPlayer_loseInfluence_ne _ _ _ _ (fun he => hne he.symm),
          getPlayer_addLog, getPlayer_addLog]
        exact hacc
      · rw [List.length_dropLast, length_shuffleDeck, List.length_append]
        simp
      · exact length_rotation accP.influences kidx
          (findIdx?_some_lt _ _ _ hfi) _
      · rw [cardTotal_loseInfluence, cardTotal_addLog, cardTotal_addLog]
    · refine (handLen_nextTurn _ chId).trans_lt ?_
      refine (handLen_rotation_ne _ accId chId _ _ hne).trans_lt ?_
      exact handLen_loseInfluence_self_lt _ chId chP hch hchinf
    · refine (handLen_nextTurn _ accId).trans ?_
      refine (handLen_rotation_self _ accId _ _ accP ?_ ?_).trans ?_
      · rw [getPlayer_loseInfluence_ne _ _ _ _ (fun he => hne he.symm),
          getPlayer_addLog, getPlayer_addLog]
        exact hacc
      · exact length_rotation accP.influences kidx
          (findIdx?_some_lt _ _ _ hfi) _
      · rw [handLen_loseInfluence_ne _ _ _ _ (fun he => hne he.symm)]
        rfl
    · intro hw
      rw [nextTurn_winner] at hw
      exact nextTurn_pendingAction_of_winner_none _ hw

/-- Witness for C2, covering both phases.  Action challenge: in `c2state`
the actor really holds the claimed Duke, and player b challenging the
pending tax loses a hidden influence while the actor keeps two, with the
overall card count preserved.  Block challenge: in the reachable state
`c5state` the targeted player has blocked the assassination with a
genuinely held Contessa, and Cal challenging the block loses a hidden
influence while the blocker keeps both cards. -/
theorem c2_failed_challenge_witness :
    (∃ s2, challenge g0 c2state "b" = Except.ok s2 ∧
      cardTotal s2 = cardTotal c2state ∧
      handLen s2 "b" < handLen c2state "b" ∧
      handLen s2 "a" = handLen c2state "a" ∧
      (s2.winner = none → s2.pendingAction = none)) ∧
    (∃ s2, challenge g0 c5state "player_2" = Except.ok s2 ∧
      cardTotal s2 = cardTotal c5state ∧
      handLen s2 "player_2" < handLen c5state "player_2" ∧
      handLen s2 "player_1" = handLen c5state "player_1" ∧
      (s2.winner = none → s2.pendingAction = none)) :=
  ⟨c2_failed_challenge_penalizes_challenger g0 c2state
    (c2state.pendingAction.getD default) "b" "a" Character.Duke
    ((getPlayer c2state "b").getD default) ((getPlayer c2state "a").getD default)
    rfl (Or.inl ⟨rfl, rfl, rfl, by decide⟩) (by decide) rfl (by decide) (by decide)
    (by decide) (by decide) (by decide),
  c2_failed_challenge_penalizes_challenger g0 c5state
    (c5state.pendingAction.getD default) "player_2" "player_1" Character.Contessa
    ((getPlayer c5state "player_2").getD default) ((getPlayer c5state "player_1").getD default)
    (by decide) (Or.inr ⟨by decide, by decide, by decide⟩) (by decide) (by decide)
    (by decide) (by decide) (by decide) (by decide) (by decide)⟩

/-! ### Claim C5: the waiting-list invariant -/

theorem mem_filterAliveNe_alive (ps : List Player) (b x : String)
    (h : x ∈ (ps.filter (fun p => p.isAlive && p.id ≠ b)).map (fun p => p.id)) :
    x ∈ (ps.filter (fun p => p.isAlive)).map (fun p => p.id) := by
  simp only [List.mem_map, List.mem_filter, Bool.and_eq_true] at h ⊢
  obtain ⟨p, ⟨hmem, hp, _⟩, rfl⟩ := h
  exact ⟨p, ⟨hmem, hp⟩, rfl⟩

theorem not_mem_filterAliveNe_self (ps : List Player) (b : String) :
    b ∉ (ps.filter (fun p => p.isAlive && p.id ≠ b)).map (fun p => p.id) := by
  intro h
  simp only [List.mem_map, List.mem_filter, Bool.and_eq_true,
    decide_eq_true_eq] at h
  obtain ⟨p, ⟨_, _, hne⟩, heq⟩ := h
  exact hne heq

theorem createGame_ok_pendingAction (g : Nat → Nat) (names : List String) (s : GameState)
    (h : createGame g names = Except.ok s) : s.pendingAction = none := by
  unfold createGame at h
  split at h
  · exact Except.noConfusion h
  · cases h
    rfl

theorem block_pendingInv (s s' : GameState) (b : String) (ch : Character)
    (h : block s b ch = Except.ok s') : pendingInv s' := by
  intro pa hpa
  unfold block at h
  cases hp0 : s.pendingAction with
  | none =>
    rw [hp0] at h
    exact Except.noConfusion h
  | some pa0 =>
    rw [hp0] at h
    simp only [] at h
    cases hb : getPlayer s b with
    | none =>
      rw [hb] at h
      exact Except.noConfusion h
    | some blocker =>
      rw [hb] at h
      simp only [] at h
      cases hal : blocker.isAlive with
      | false =>
        rw [hal] at h
        simp only [Bool.not_false, if_true] at h
        exact Except.noConfusion h
      | true =>
        rw [hal] at h
        simp only [Bool.not_true, Bool.false_eq_true, if_false] at h
        by_cases hph : pa0.phase ≠ PAPhase.block ∧ pa0.phase ≠ PAPhase.challenge_action
        · rw [if_pos hph] at h
          exact Except.noConfusion h
        · rw [if_neg hph] at h
          cases hbc : BLOCK_CHARACTERS pa0.action.type with
          | none =>
            rw [hbc] at h
            exact Except.noConfusion h
          | some l =>
            rw [hbc] at h
            simp only [] at h
            cases hc : l.contains ch with
            | false =>
              rw [hc] at h
              simp only [Bool.not_false, if_true] at h
              exact Except.noConfusion h
            | true =>
              rw [hc] at h
              simp only [Bool.not_true, Bool.false_eq_true, if_false] at h
              cases h
              simp only [] at hpa
              cases hpa
              refine ⟨?_, ?_, ?_⟩
              · intro x hx
                exact mem_filterAliveNe_alive s.players b x hx
              · intro _ b2 hb2
                simp only [] at hb2
                cases hb2
                exact not_mem_filterAliveNe_self s.players b
              · intro hph2
                exact absurd rfl hph2

theorem challenge_clears_pending (g : Nat → Nat) (s s' : GameState) (c : String)
    (h : challenge g s c = Except.ok s') (hw : s'.winner = none) :
    s'.pendingAction = none := by
  unfold challenge at h
  cases hp0 : s.pendingAction with
  | none =>
    rw [hp0] at h
    exact Except.noConfusion h
  | some pa0 =>
    rw [hp0] at h
    simp only [] at h
    cases hc : getPlayer s c with
    | none =>
      rw [hc] at h
      exact Except.noConfusion h
    | some cp =>
      rw [hc] at h
      simp only [] at h
      cases hal : cp.isAlive with
      | false =>
        rw [hal] at h
        simp only [Bool.not_false, if_true] at h
        exact Except.noConfusion h
      | true =>
        rw [hal] at h
        simp only [Bool.not_true, Bool.false_eq_true, if_false] at h
        by_cases h1 : pa0.phase = PAPhase.challenge_action
        · rw [if_pos h1] at h
          simp only [] at h
          rw [if_pos h1, if_pos h1] at h
          split at h
          · cases h
            exact resolveAction_pendingAction g _ pa0.action
          · cases h
            rw [nextTurn_winner] at hw
            exact nextTurn_pendingAction_of_winner_none _ hw
        · by_cases h2 : pa0.phase = PAPhase.challenge_block
          · rw [if_neg h1, if_pos h2] at h
            simp only [] at h
            rw [if_neg h1, if_neg h1] at h
            split at h
            · cases h
              rw [nextTurn_winner] at hw
              exact nextTurn_pendingAction_of_winner_none _ hw
            · cases h
              exact resolveAction_pendingAction g _ pa0.action
          · rw [if_neg h1, if_neg h2] at h
            exact Except.noConfusion h

theorem aliveMap_updateCoins (ps : List Player) (i : Nat) (h : Player → Int) :
    ((updatePlayer ps i (fun p => { p with coins := h p })).filter
        (fun p => p.isAlive)).map (fun p => p.id)
      = (ps.filter (fun p => p.isAlive)).map (fun p => p.id) :=
  aliveMap_updatePlayer ps i _ (fun p => rfl) (fun p => rfl)

theorem startAction_pendingInv (g : Nat → Nat) (s s' : GameState) (a : GameAction)
    (h : startAction g s a = Except.ok s') : pendingInv s' := by
  intro pa hpa
  unfold startAction at h
  cases hval : canPerformAction s a with
  | error e =>
    rw [hval] at h
    exact Except.noConfusion h
  | ok u =>
    rw [hval] at h
    simp only [] at h
    by_cases hic : a.type = ActionType.income ∨ a.type = ActionType.coup
    · rw [if_pos hic] at h
      cases h
      rw [resolveAction_pendingAction] at hpa
      exact Option.noConfusion hpa
    · rw [if_neg hic] at h
      cases h
      simp only [] at hpa
      cases hpa
      by_cases hca : a.type = ActionType.coup ∨ a.type = ActionType.assassinate
      · rw [if_pos hca]
        refine ⟨?_, ?_, ?_⟩
        · intro x hx
          simp only [aliveIds]
          rw [aliveMap_updateCoins, addLog_players]
          exact mem_filterAliveNe_alive s.players a.playerId x hx
        · intro _ b hb2
          simp only [] at hb2
          exact Option.noConfusion hb2
        · intro _
          exact not_mem_filterAliveNe_self s.players a.playerId
      · rw [if_neg hca]
        refine ⟨?_, ?_, ?_⟩
        · intro x hx
          simp only [aliveIds]
          rw [addLog_players]
          exact mem_filterAliveNe_alive s.players a.playerId x hx
        · intro _ b hb2
          simp only [] at hb2
          exact Option.noConfusion hb2
        · intro _
          exact not_mem_filterAliveNe_self s.players a.playerId

theorem pass_pendingInv (g : Nat → Nat) (s s' : GameState) (p : String)
    (h : pass g s p = Except.ok s')
    (hInv : s.winner = none → pendingInv s)
    (hw : s'.winner = none) : pendingInv s' := by
  intro pa hpa
  rw [pass.eq_def] at h
  cases hp0 : s.pendingAction with
  | none =>
    rw [hp0] at h
    exact Except.noConfusion h
  | some pa0 =>
    rw [hp0] at h
    simp only [] at h
    cases hcw : pa0.waitingForPlayers.contains p with
    | false =>
      rw [hcw] at h
      simp only [Bool.not_false, if_true] at h
      exact Except.noConfusion h
    | true =>
      rw [hcw] at h
      simp only [Bool.not_true, Bool.false_eq_true, if_false] at h
      by_cases hlen : (pa0.waitingForPlayers.filter (fun i => i ≠ p)).length = 0
      · rw [if_pos hlen] at h
        cases hph : pa0.phase with
        | challenge_action =>
          rw [hph] at h
          simp only [] at h
          cases hbc : BLOCK_CHARACTERS pa0.action.type with
          | none =>
            rw [hbc] at h
            simp only [] at h
            cases h
            rw [resolveAction_pendingAction] at hpa
            exact Option.noConfusion hpa
          | some l =>
            rw [hbc] at h
            simp only [] at h
            by_cases hl : l.length > 0
            · rw [if_pos hl] at h
              cases h
              simp only [] at hpa
              cases hpa
              refine ⟨?_, ?_, ?_⟩
              · intro x hx
                exact mem_filterAliveNe_alive s.players pa0.action.playerId x hx
              · intro hph2
                simp only [] at hph2
                exact PAPhase.noConfusion hph2
              · intro _
                exact not_mem_filterAliveNe_self s.players pa0.action.playerId
            · rw [if_neg hl] at h
              cases h
              rw [resolveAction_pendingAction] at hpa
              exact Option.noConfusion hpa
        | block =>
          rw [hph] at h
          simp only [] at h
          cases h
          rw [resolveAction_pendingAction] at hpa
          exact Option.noConfusion hpa
        | challenge_block =>
          rw [hph] at h
          simp only [] at h
          cases h
          rw [nextTurn_winner] at hw
          rw [nextTurn_pendingAction_of_winner_none _ hw] at hpa
          exact Option.noConfusion hpa
        | action =>
          rw [hph] at h
          simp only [] at h
          cases h
          simp only [] at hpa
          cases hpa
          have hInv0 := hInv hw pa0 hp0
          refine ⟨?_, ?_, ?_⟩
          · intro x hx
            exact hInv0.1 x (List.mem_of_mem_filter hx)
          · intro hph2
            simp only [] at hph2
            exact PAPhase.noConfusion hph2
          · intro _ hmem
            refine hInv0.2.2 ?_ (List.mem_of_mem_filter hmem)
            rw [hph]
            decide
        | resolve =>
          rw [hph] at h
          simp only [] at h
          cases h
          simp only [] at hpa
          cases hpa
          have hInv0 := hInv hw pa0 hp0
          refine ⟨?_, ?_, ?_⟩
          · intro x hx
            exact hInv0.1 x (List.mem_of_mem_filter hx)
          · intro hph2
            simp only [] at hph2
            exact PAPhase.noConfusion hph2
          · intro _ hmem
            refine hInv0.2.2 ?_ (List.mem_of_mem_filter hmem)
            rw [hph]
            decide
      · rw [if_neg hlen] at h
        cases h
        simp only [] at hpa
        cases hpa
        have hInv0 := hInv hw pa0 hp0
        refine ⟨?_, ?_, ?_⟩
        · intro x hx
          exact hInv0.1 x (List.mem_of_mem_filter hx)
        · intro hph2 b hb2
          intro hmem
          exact hInv0.2.1 hph2 b hb2 (List.mem_of_mem_filter hmem)
        · intro hph2 hmem
          exact hInv0.2.2 hph2 (List.mem_of_mem_filter hmem)

/-- Claim C5, amended: in every reachable state in which no winner has
been set, the pending waiting list contains only living participants, the
blocker is never awaited, and outside the block-challenge phase the actor
is never awaited.  (As stated the claim is false: after a block the actor
is awaited — see the counterexample.) -/
theorem c5_waiting_invariant_amended (s : GameState) (hr : Reachable s)
    (hw : s.winner = none) : pendingInv s := by
  obtain ⟨s0, ⟨gc, names, hcg⟩, hrt⟩ := hr
  have main : ∀ t, Relation.ReflTransGen Step s0 t →
      (t.winner = none → pendingInv t) := by
    intro t hrt2
    induction hrt2 with
    | refl =>
      intro _ pa hpa
      rw [createGame_ok_pendingAction gc names s0 hcg] at hpa
      exact Option.noConfusion hpa
    | tail hab hbc ih =>
      intro hwc
      rcases hbc with ⟨g2, a2, hsa⟩ | ⟨g2, c2, hch⟩ | ⟨b2, ch2, hbl⟩ | ⟨g2, p2, hps⟩
      · exact startAction_pendingInv g2 _ _ a2 hsa
      · intro pa hpa
        rw [challenge_clears_pending g2 _ _ c2 hch hwc] at hpa
        exact Option.noConfusion hpa
      · exact block_pendingInv _ _ b2 ch2 hbl
      · exact pass_pendingInv g2 _ _ p2 hps ih hwc
  exact main s hrt hw

/-- Counterexample for C5 as stated: in the reachable state `c5state`
(Ben has just blocked the assassination), the acting player Ann is in the
waiting list of the pending block-challenge, so the claimed actor
exclusion fails. -/
theorem c5_actor_in_waiting_cex :
    ¬ (∀ s : GameState, Reachable s → ∀ pa, s.pendingAction = some pa →
        (∀ x ∈ pa.waitingForPlayers, x ∈ aliveIds s) ∧
        pa.action.playerId ∉ pa.waitingForPlayers ∧
        (pa.phase = PAPhase.challenge_block →
          ∀ b, pa.blockerId = some b → b ∉ pa.waitingForPlayers)) := by
  intro hclaim
  have hr : Reachable c5state :=
    reachable_of_game g0 g0 ["Ann", "Ben", "Cal"]
      (c3moves ++ [Move.blk "player_1" Character.Contessa]) (by decide) (by decide)
  have hx := hclaim c5state hr (c5state.pendingAction.getD default) (by decide)
  exact hx.2.1 (by decide)

/-- Witness for the amended C5 invariant at the reachable state
`c3state`, which carries a pending assassination claim. -/
theorem c5_waiting_invariant_witness : pendingInv c3state :=
  c5_waiting_invariant_amended c3state
    (reachable_of_game g0 g0 ["Ann", "Ben", "Cal"] c3moves (by decide) (by decide))
    (by decide)
